import Mathlib

/-! # Habana NRI plugin: device injection engine

A shallow embedding of `plugins/habana/habana.go` and `plugins/habana/specs.go`.

Go strings are byte sequences; a string is modelled as the list of its bytes
(`Nat` values below 256).  Go `error` values are modelled by their message
(`none` is the nil error).  A Go run-time panic is modelled by `none` in the
`Option` result of the function that can panic.
-/

namespace Habana

/-! ## Strings -/

/-- A Go string: the list of its bytes. -/
abbrev Str := List Nat

/-- A Go `error` value: `none` is nil, `some msg` an error with message `msg`. -/
abbrev GoError := Option Str

/-- UTF-8 encoding of a code point (the Go conversion `string(rune)`). -/
def utf8 (c : Nat) : Str :=
  if c < 0x80 then [c]
  else if c < 0x800 then [0xC0 + c / 64, 0x80 + c % 64]
  else if c < 0x10000 then [0xE0 + c / 4096, 0x80 + c / 64 % 64, 0x80 + c % 64]
  else [0xF0 + c / 262144, 0x80 + c / 4096 % 64, 0x80 + c / 64 % 64, 0x80 + c % 64]

/-- The bytes of a string literal. -/
def bytes (s : String) : Str :=
  s.data.flatMap (fun c => utf8 c.toNat)

/-- Go `strings.HasPrefix(s, p)`. -/
def HasPrefix (s p : Str) : Bool :=
  p.isPrefixOf s

/-- Go `strings.Index(s, sep)`: position of the first occurrence of `sep` in
`s`, `none` when there is none (Go returns -1). -/
def Index : Str → Str → Option Nat
  | [], sep => if sep = [] then some 0 else none
  | c :: s, sep =>
    if HasPrefix (c :: s) sep then some 0
    else (Index s sep).map (· + 1)

/-- Go `strings.Contains(s, sub)`. -/
def Contains (s sub : Str) : Bool :=
  (Index s sub).isSome

/-- Go `strings.Cut(s, sep)`: `(before, after, found)`. -/
def Cut (s sep : Str) : Str × Str × Bool :=
  match Index s sep with
  | some i => (s.take i, s.drop (i + sep.length), true)
  | none => (s, [], false)

/-- Go `strings.Count(s, sep)` for a non-empty `sep`: the number of
non-overlapping occurrences, found by repeated `Index`; the first argument
bounds the number of iterations of the library loop. -/
def countLoop (sep : Str) : Nat → Str → Nat
  | 0, _ => 0
  | fuel + 1, s =>
    match Index s sep with
    | none => 0
    | some i => countLoop sep fuel (s.drop (i + sep.length)) + 1

/-- Go `strings.Count(s, sep)` for a non-empty separator. -/
def Count (s sep : Str) : Nat :=
  countLoop sep s.length s

/-- The loop of Go `strings.genSplit`: at most `n` cuts, then the remainder. -/
def genSplit (sep : Str) : Nat → Str → List Str
  | 0, s => [s]
  | n + 1, s =>
    match Index s sep with
    | none => [s]
    | some m => s.take m :: genSplit sep n (s.drop (m + sep.length))

/-- Go `strings.Split(s, sep)` for a non-empty separator (the source only
splits on `","`): `Count(s, sep) + 1` pieces. -/
def Split (s sep : Str) : List Str :=
  genSplit sep (Count s sep) s

/-- Go `slices.Contains(xs, x)` on strings. -/
def slicesContains (xs : List Str) (x : Str) : Bool :=
  xs.contains x

/-! ## Constants of `habana.go` -/

def hookDefaultFilePath : Str := bytes "/usr/bin/habana-container-hook"
def EnvHLVisibleDevices : Str := bytes "HABANA_VISIBLE_DEVICES"
def EnvHLRuntimeError : Str := bytes "HABANA_RUNTIME_ERROR"

/-! ## Data model -/

/-- Modelled from the spec: `api.Container` (package `pkg/api`); the source
reads its declared environment entries and, for logging, its name. -/
structure Container where
  Name : Str
  Env : List Str
  deriving DecidableEq, Repr

/-- Modelled from the spec: `api.PodSandbox` (package `pkg/api`); only its
name is read, for logging. -/
structure PodSandbox where
  Name : Str
  deriving DecidableEq, Repr

/-- Modelled from the spec: `api.Hook` (package `pkg/api`), one
external-program invocation point with its path and argument list. -/
structure Hook where
  Path : Str
  Args : List Str
  deriving DecidableEq, Repr

/-- Modelled from the spec: `api.Hooks` (package `pkg/api`), the ordered hook
lists of the two lifecycle stages the source writes. -/
structure Hooks where
  Prestart : List Hook := []
  CreateRuntime : List Hook := []
  deriving DecidableEq, Repr

/-- Modelled from the spec: `api.LinuxDevice` (package `pkg/api`); the
optional fields `FileMode`, `Uid`, `Gid` are `none` when unset; `Type_` is its field `Type`. -/
structure LinuxDevice where
  Path : Str
  Type_ : Str
  Major : Int
  Minor : Int
  FileMode : Option Nat
  Uid : Option Nat
  Gid : Option Nat
  deriving DecidableEq, Repr

/-- Modelled from the spec: `api.ContainerAdjustment` (package `pkg/api`), the
accumulator of hooks (a nil pointer until first written), Linux device
entries and environment variables. -/
structure ContainerAdjustment where
  Hooks : Option Hooks := none
  LinuxDevices : List LinuxDevice := []
  Env : List (Str × Str) := []
  deriving DecidableEq, Repr

/-- Modelled from the spec: `adj.GetLinux().GetDevices()` of package
`pkg/api`, the Linux device entries of the adjustment. -/
def ContainerAdjustment.GetDevices (adj : ContainerAdjustment) : List LinuxDevice :=
  adj.LinuxDevices

/-- Modelled from the spec: `adj.AddDevice(d)` of package `pkg/api`, which
appends one entry to the Linux device entries. -/
def ContainerAdjustment.AddDevice (adj : ContainerAdjustment) (d : LinuxDevice) :
    ContainerAdjustment :=
  { adj with LinuxDevices := adj.LinuxDevices ++ [d] }

/-- Modelled from the spec: `adj.AddEnv(key, value)` of package `pkg/api`; the
environment of an adjustment is a mapping with unique keys, so an entry
for `key` replaces the one already there. -/
def ContainerAdjustment.AddEnv (adj : ContainerAdjustment) (key value : Str) :
    ContainerAdjustment :=
  { adj with Env := adj.Env.filter (fun kv => kv.1 ≠ key) ++ [(key, value)] }

/-- The prestart hook list of an adjustment (empty while `Hooks` is nil). -/
def ContainerAdjustment.prestartHooks (adj : ContainerAdjustment) : List Hook :=
  match adj.Hooks with
  | none => []
  | some hs => hs.Prestart

/-- The createRuntime hook list of an adjustment (empty while `Hooks` is nil). -/
def ContainerAdjustment.createRuntimeHooks (adj : ContainerAdjustment) : List Hook :=
  match adj.Hooks with
  | none => []
  | some hs => hs.CreateRuntime

/-- Modelled from the spec: `discover.DevInfo` (package
`plugins/habana/discover`), one host character device node. -/
structure DevInfo where
  Path : Str
  Major : Nat
  Minor : Nat
  FileMode : Nat
  deriving DecidableEq, Repr

/-- Modelled from the spec: the runtime mode of package
`plugins/habana/config`, a closed two-way variant. -/
inductive Mode where
  | Legacy
  | Modern
  deriving DecidableEq, Repr

/-- Modelled from the spec: `config.Config.Runtime` (package
`plugins/habana/config`). -/
structure RuntimeConfig where
  AlwaysMount : Bool
  Mode : Mode
  deriving DecidableEq, Repr

/-- Modelled from the spec: `config.Config` (package `plugins/habana/config`). -/
structure Config where
  Runtime : RuntimeConfig
  MountAccelerators : Bool
  MountUverbs : Bool
  BinariesDir : Str
  deriving DecidableEq, Repr

/-- Everything the plugin observes outside its own code: the host probes behind
the package variables `execLookPath`, `osExecutable`, `osStat`, `osReadDir`
(`os.Stat` is the same probe as `osStat`), the presence of `FAKE_DEVICE` in
the process environment, the functions of package `discover`, and the
library functions `filepath.Dir`, `path.Join` and `strconv.Quote`.  A
lookup of a device succeeds with its metadata or fails with an error
message. -/
structure Host where
  execLookPath : Str → Str × GoError
  osExecutable : Str × GoError
  osStat : Str → GoError
  osReadDir : Str → List Str × GoError
  fakeDeviceSet : Bool
  AcceleratorDevices : List Str
  DevicesIDs : List Str → List Str
  DeviceInfo : Str → Except Str DevInfo
  FakeDeviceInfo : Str → Str → Except Str DevInfo
  filepathDir : Str → Str
  pathJoin : Str → Str → Str
  strconvQuote : Str → Str

/-! ## `specs.go` -/

/-- `hookBinaryPath` of `specs.go`: the resolved path and the error. -/
def hookBinaryPath (h : Host) (cfg : Config) : Str × GoError :=
  match h.execLookPath (bytes "habana-container-hook") with
  | (binPath, none) => (binPath, none)
  | (_, some _) =>
    let second : Option Str :=
      match h.osExecutable with
      | (currentExec, none) =>
        let currentDir := h.filepathDir currentExec
        let binPath := h.pathJoin currentDir (bytes "habana-container-hook")
        match h.osStat binPath with
        | none => some binPath
        | some _ => none
      | (_, some _) => none
    match second with
    | some binPath => (binPath, none)
    | none =>
      let binPath := h.pathJoin cfg.BinariesDir (bytes "habana-container-hook")
      match h.osStat binPath with
      | none => (binPath, none)
      | some _ =>
        let binPath := hookDefaultFilePath
        match h.osStat binPath with
        | none => (binPath, none)
        | some _ => ([], some (bytes "habana-container-hook was not found on the system"))

/-- `addPrestartHook` of `specs.go`: the adjustment after the call and the
returned error. -/
def addPrestartHook (h : Host) (adj : ContainerAdjustment) (cfg : Config) :
    ContainerAdjustment × GoError :=
  let r := hookBinaryPath h cfg
  let r := match r.2 with
    | none => r
    | some _ => (hookDefaultFilePath, h.osStat hookDefaultFilePath)
  match r.2 with
  | some err => (adj, some err)
  | none =>
    let path := r.1
    let args := [path]
    let hook : Hook := { Path := path, Args := args ++ [bytes "prestart"] }
    match adj.Hooks with
    | none => ({ adj with Hooks := some { Prestart := [hook] } }, none)
    | some hooks =>
      if hooks.Prestart.length ≠ 0 ∧
          hooks.Prestart.any (fun hk => Contains hk.Path (bytes "habana-container-hook")) then
        (adj, none)
      else
        ({ adj with Hooks := some { hooks with Prestart := hooks.Prestart ++ [hook] } }, none)

/-- `addCreateRuntimeHook` of `specs.go`: the adjustment after the call and the
returned error. -/
def addCreateRuntimeHook (h : Host) (adj : ContainerAdjustment) (cfg : Config) :
    ContainerAdjustment × GoError :=
  let r := hookBinaryPath h cfg
  let r := match r.2 with
    | none => r
    | some _ => (hookDefaultFilePath, h.osStat hookDefaultFilePath)
  match r.2 with
  | some err => (adj, some err)
  | none =>
    let path := r.1
    let args := [path]
    let hook : Hook := { Path := path, Args := args ++ [bytes "createRuntime"] }
    match adj.Hooks with
    | none => ({ adj with Hooks := some { CreateRuntime := [hook] } }, none)
    | some hooks =>
      if hooks.CreateRuntime.length ≠ 0 ∧
          hooks.CreateRuntime.any (fun hk => Contains hk.Path (bytes "habana-container-hook")) then
        (adj, none)
      else
        ({ adj with Hooks := some { hooks with CreateRuntime := hooks.CreateRuntime ++ [hook] } },
          none)

/-- The last byte of a device path converted to a string,
`string(dev[len(dev)-1])`; indexing an empty path panics. -/
def devID (dev : Str) : Option Str :=
  match dev.getLast? with
  | none => none
  | some b => some (utf8 b)

/-- What the scan of `container.Env` in `filterDevicesByENV` ends with: the
early `return devices`, or the value left in `requestedDevs`. -/
inductive EnvScan where
  | returnDevices
  | requestedDevs (ids : List Str)
  deriving DecidableEq, Repr

/-- The scan of `container.Env` in `filterDevicesByENV` (lines 198-210). -/
def scanEnv : List Str → EnvScan
  | [] => .requestedDevs []
  | ev :: rest =>
    if HasPrefix ev (bytes "HABANA_VISIBLE_DEVICES") then
      match Cut ev (bytes "=") with
      | (_, values, true) =>
        if values = bytes "all" then .returnDevices
        else .requestedDevs (Split values (bytes ","))
      | (_, _, false) => .requestedDevs []
    else scanEnv rest

/-- The filtering loop of `filterDevicesByENV` (lines 217-223); `none` is the
index-out-of-range panic on an empty device path. -/
def filterLoop (requestedDevs : List Str) : List Str → List Str → Option (List Str)
  | [], filteredDevices => some filteredDevices
  | dev :: devices, filteredDevices =>
    match devID dev with
    | none => none
    | some id =>
      if slicesContains requestedDevs id then
        filterLoop requestedDevs devices (filteredDevices ++ [dev])
      else filterLoop requestedDevs devices filteredDevices

/-- `filterDevicesByENV` of `specs.go`; `none` is a panic. -/
def filterDevicesByENV (container : Container) (devices : List Str) : Option (List Str) :=
  match scanEnv container.Env with
  | .returnDevices => some devices
  | .requestedDevs requestedDevs =>
    if requestedDevs.length = 0 then some devices
    else filterLoop requestedDevs devices []

/-- `addDevicesToSpec` of `specs.go`: the set `current` holds the paths present
before the call and is not extended while the devices are added. -/
def addDevicesToSpec (adj : ContainerAdjustment) (devices : List DevInfo) :
    ContainerAdjustment :=
  let current : List Str := adj.GetDevices.map (fun dev => dev.Path)
  devices.foldl
    (fun adj hlDevice =>
      if hlDevice.Path ∈ current then adj
      else
        adj.AddDevice
          { Type_ := bytes "c"
            Major := (hlDevice.Major : Int)
            Minor := (hlDevice.Minor : Int)
            FileMode := some hlDevice.FileMode
            Path := hlDevice.Path
            Gid := some 0
            Uid := some 0 })
    adj

/-- The inner loop of `addAcceleratorDevices` over the two path stems, for
one requested ID `u`: the extended `devs`, or the lookup error. -/
def accelPaths (h : Host) (fake : Bool) (u : Str) :
    List Str → List DevInfo → Except Str (List DevInfo)
  | [], devs => .ok devs
  | d :: ds, devs =>
    let p := d ++ u
    match (if !fake then h.DeviceInfo p else h.FakeDeviceInfo d u) with
    | .error err => .error err
    | .ok i => accelPaths h fake u ds (devs ++ [i])

/-- The outer loop of `addAcceleratorDevices` over the requested IDs. -/
def accelLoop (h : Host) (fake : Bool) :
    List Str → List DevInfo → Except Str (List DevInfo)
  | [], devs => .ok devs
  | u :: us, devs =>
    match accelPaths h fake u [bytes "/dev/accel/accel", bytes "/dev/accel/accel_controlD"] devs with
    | .error err => .error err
    | .ok devs => accelLoop h fake us devs

/-- `addAcceleratorDevices` of `specs.go`: the adjustment after the call and
the returned error. -/
def addAcceleratorDevices (h : Host) (adj : ContainerAdjustment) (requestedDevs : List Str)
    (fake : Bool) : ContainerAdjustment × GoError :=
  match accelLoop h fake requestedDevs [] with
  | .error err => (adj, some err)
  | .ok devs => (addDevicesToSpec adj devs, none)

/-- The canned table `uDev` of `addUverbsDevices`. -/
def uDev : List Str :=
  [bytes "/dev/infiniband/uverbs9",
   bytes "/dev/infiniband/uverbs10",
   bytes "/dev/infiniband/uverbs11",
   bytes "/dev/infiniband/uverbs12",
   bytes "/dev/infiniband/uverbs13",
   bytes "/dev/infiniband/uverbs14",
   bytes "/dev/infiniband/uverbs15",
   bytes "/dev/infiniband/uverbs16"]

/-- The loop of `addUverbsDevices` from position `i` on: `none` is the
index-out-of-range panic of `uDev[i]`; otherwise the collected `devs` or the
lookup error. -/
def uverbsLoop (h : Host) (fake : Bool) :
    Nat → List Str → List DevInfo → Option (Except Str (List DevInfo))
  | _, [], devs => some (.ok devs)
  | i, v :: vs, devs =>
    if fake then
      match uDev.get? i with
      | none => none
      | some uverbDev =>
        match h.FakeDeviceInfo uverbDev [] with
        | .error err => some (.error err)
        | .ok info => uverbsLoop h fake (i + 1) vs (devs ++ [info])
    else
      let hlib := bytes "/sys/class/infiniband/hlib_" ++ v
      match h.osReadDir (hlib ++ bytes "/device/infiniband_verbs") with
      | (_, some _) => uverbsLoop h fake (i + 1) vs devs
      | ([], none) => uverbsLoop h fake (i + 1) vs devs
      | (name :: _, none) =>
        let uverbDev := bytes "/dev/infiniband/" ++ name
        match h.DeviceInfo uverbDev with
        | .error err => some (.error err)
        | .ok info => uverbsLoop h fake (i + 1) vs (devs ++ [info])

/-- `addUverbsDevices` of `specs.go`: `none` is a panic; otherwise the
adjustment after the call and the returned error. -/
def addUverbsDevices (h : Host) (adj : ContainerAdjustment) (requestedDevsIDs : List Str)
    (fake : Bool) : Option (ContainerAdjustment × GoError) :=
  match uverbsLoop h fake 0 requestedDevsIDs [] with
  | none => none
  | some (.error err) => some (adj, some err)
  | some (.ok devs) => some (addDevicesToSpec adj devs, none)

/-- `addEnvVar` of `specs.go`. -/
def addEnvVar (h : Host) (adj : ContainerAdjustment) (key value : Str) : ContainerAdjustment :=
  adj.AddEnv key (h.strconvQuote value)

/-! ## `habana.go` -/

/-- `NeedFakeDevice` of `habana.go`. -/
def NeedFakeDevice (h : Host) : Bool :=
  h.fakeDeviceSet

/-- `IsHabanaContainer` of `habana.go`. -/
def IsHabanaContainer (c : Container) : Bool :=
  c.Env.any (fun ev => HasPrefix ev EnvHLVisibleDevices)

/-- `addErrorEnvVar` of `habana.go`. -/
def addErrorEnvVar (h : Host) (c : Container) (adj : ContainerAdjustment) (msg : Str) :
    ContainerAdjustment :=
  if c.Env.any (fun env => HasPrefix env EnvHLRuntimeError) then adj
  else addEnvVar h adj EnvHLRuntimeError msg

/-- What one call of `CreateContainer` leaves: the final value of its local
adjustment object `adjust`, and the returned adjustment and error (the
returned update list is nil on every path and is not represented). -/
structure CreateContainerResult where
  adjust : ContainerAdjustment
  ret : Option ContainerAdjustment
  err : GoError
  deriving DecidableEq, Repr

/-- The literal assigned to `requestedDevices` in `CreateContainer` when
`FAKE_DEVICE` is set (line 113). -/
def fakeRequestedDevices : List Str :=
  [bytes "0", bytes "1", bytes "2", bytes "3", bytes "4", bytes "5", bytes "6", bytes "7"]

/-- `CreateContainer` of `habana.go`; `none` is a panic. -/
def CreateContainer (h : Host) (cfg : Config) (_pod : PodSandbox) (container : Container) :
    Option CreateContainerResult :=
  let adjust : ContainerAdjustment := {}
  if !cfg.Runtime.AlwaysMount && !IsHabanaContainer container then
    some { adjust := adjust, ret := none, err := none }
  else if cfg.Runtime.Mode = Mode.Legacy then
    match addPrestartHook h adjust cfg with
    | (adjust, some err) =>
      some { adjust := adjust, ret := none,
             err := some (bytes "adding habana prestart hook: " ++ err) }
    | (adjust, none) => some { adjust := adjust, ret := some adjust, err := none }
  else
    match addCreateRuntimeHook h adjust cfg with
    | (adjust, some err) =>
      some { adjust := adjust, ret := none,
             err := some (bytes "adding createRuntime hook: " ++ err) }
    | (adjust, none) =>
      let fake := NeedFakeDevice h
      let requested : Option (List Str) :=
        if !fake then
          (filterDevicesByENV container h.AcceleratorDevices).map h.DevicesIDs
        else
          some fakeRequestedDevices
      match requested with
      | none => none
      | some requestedDevices =>
        if requestedDevices.length = 0 then
          some { adjust := adjust, ret := none, err := none }
        else
          let r :=
            if cfg.MountAccelerators then addAcceleratorDevices h adjust requestedDevices fake
            else (adjust, none)
          match r with
          | (adjust, some err) =>
            some { adjust := addErrorEnvVar h container adjust err, ret := none,
                   err := some (bytes "adding accelerator devices: " ++ err) }
          | (adjust, none) =>
            if cfg.MountUverbs then
              match addUverbsDevices h adjust requestedDevices fake with
              | none => none
              | some (adjust, some err) =>
                some { adjust := addErrorEnvVar h container adjust err, ret := none,
                       err := some (bytes "adding uverb devices: " ++ err) }
              | some (adjust, none) => some { adjust := adjust, ret := some adjust, err := none }
            else some { adjust := adjust, ret := some adjust, err := none }

/-! ## Specification-side predicates -/

/-- The last character of `dev`, as a one-character string, is one of `ids`
(false for an empty path). -/
def lastCharIn (ids : List Str) (dev : Str) : Bool :=
  match devID dev with
  | some id => ids.contains id
  | none => false

/-- First check of the hook search: the executable-search-path lookup of
`habana-container-hook`; the path found, if any. -/
def checkSearchPath (h : Host) : Option Str :=
  match h.execLookPath (bytes "habana-container-hook") with
  | (p, none) => some p
  | (_, some _) => none

/-- Second check of the hook search: `habana-container-hook` in the directory
of the current executable exists. -/
def checkExecutableDir (h : Host) : Option Str :=
  match h.osExecutable with
  | (currentExec, none) =>
    if h.osStat (h.pathJoin (h.filepathDir currentExec) (bytes "habana-container-hook")) = none
    then some (h.pathJoin (h.filepathDir currentExec) (bytes "habana-container-hook"))
    else none
  | (_, some _) => none

/-- Third check of the hook search: `habana-container-hook` in
`cfg.BinariesDir` exists. -/
def checkBinariesDir (h : Host) (cfg : Config) : Option Str :=
  if h.osStat (h.pathJoin cfg.BinariesDir (bytes "habana-container-hook")) = none
  then some (h.pathJoin cfg.BinariesDir (bytes "habana-container-hook"))
  else none

/-- Fourth check of the hook search: `/usr/bin/habana-container-hook` exists. -/
def checkDefault (h : Host) : Option Str :=
  if h.osStat (bytes "/usr/bin/habana-container-hook") = none
  then some (bytes "/usr/bin/habana-container-hook")
  else none

/-- The pipeline proceeds past `Evaluate`: always-mount is configured or the
container declares an entry with prefix `HABANA_VISIBLE_DEVICES`. -/
def proceeds (cfg : Config) (c : Container) : Prop :=
  cfg.Runtime.AlwaysMount = true ∨
    ∃ e ∈ c.Env, HasPrefix e (bytes "HABANA_VISIBLE_DEVICES") = true

/-- The paths of the Linux device entries of an adjustment, in order. -/
def devicePaths (adj : ContainerAdjustment) : List Str :=
  adj.GetDevices.map (fun d => d.Path)

/-- The accelerator entries among a list of device paths. -/
def accelEntries (paths : List Str) : List Str :=
  paths.filter (fun p => HasPrefix p (bytes "/dev/accel/"))

/-- The uverbs entries among a list of device paths. -/
def uverbsEntries (paths : List Str) : List Str :=
  paths.filter (fun p => HasPrefix p (bytes "/dev/infiniband/"))

/-- The device paths of the fake-mode run: the accel and control paths of the
IDs 0 to 7, then the eight canned uverbs names. -/
def fakeScenarioPaths : List Str :=
  [bytes "/dev/accel/accel0", bytes "/dev/accel/accel_controlD0",
   bytes "/dev/accel/accel1", bytes "/dev/accel/accel_controlD1",
   bytes "/dev/accel/accel2", bytes "/dev/accel/accel_controlD2",
   bytes "/dev/accel/accel3", bytes "/dev/accel/accel_controlD3",
   bytes "/dev/accel/accel4", bytes "/dev/accel/accel_controlD4",
   bytes "/dev/accel/accel5", bytes "/dev/accel/accel_controlD5",
   bytes "/dev/accel/accel6", bytes "/dev/accel/accel_controlD6",
   bytes "/dev/accel/accel7", bytes "/dev/accel/accel_controlD7",
   bytes "/dev/infiniband/uverbs9", bytes "/dev/infiniband/uverbs10",
   bytes "/dev/infiniband/uverbs11", bytes "/dev/infiniband/uverbs12",
   bytes "/dev/infiniband/uverbs13", bytes "/dev/infiniband/uverbs14",
   bytes "/dev/infiniband/uverbs15", bytes "/dev/infiniband/uverbs16"]

/-- The device entry that `addDevicesToSpec` builds from one `DevInfo`. -/
def deviceEntry (d : DevInfo) : LinuxDevice :=
  { Path := d.Path, Type_ := bytes "c", Major := (d.Major : Int), Minor := (d.Minor : Int),
    FileMode := some d.FileMode, Uid := some 0, Gid := some 0 }

/-- The lookup that `addAcceleratorDevices` makes for the stem `d` and the ID
`u`. -/
def lookupDevice (h : Host) (fake : Bool) (d u : Str) : Except Str DevInfo :=
  if !fake then h.DeviceInfo (d ++ u) else h.FakeDeviceInfo d u

/-- The lookups of `addAcceleratorDevices` for a request: for each ID in
request order, the accel stem and then the control stem. -/
def acceleratorRequests (ids : List Str) : List (Str × Str) :=
  ids.flatMap (fun u => [(bytes "/dev/accel/accel", u), (bytes "/dev/accel/accel_controlD", u)])

/-- Resolve a list of requests in order, stopping at the first error. -/
def resolveAll {α : Type} (f : α → Except Str DevInfo) : List α → Except Str (List DevInfo)
  | [] => .ok []
  | a :: rest =>
    match f a with
    | .error e => .error e
    | .ok dev =>
      match resolveAll f rest with
      | .error e => .error e
      | .ok devs => .ok (dev :: devs)

/-- The uverbs device name that the non-fake branch of `addUverbsDevices`
finds for the ID `v`: the first entry of its sysfs directory, or nothing
when the directory is unreadable or empty. -/
def uverbsName (h : Host) (v : Str) : Option Str :=
  match h.osReadDir (bytes "/sys/class/infiniband/hlib_" ++ v ++ bytes "/device/infiniband_verbs") with
  | (name :: _, none) => some name
  | _ => none

/-- The uverbs device paths for a request, in request order, the IDs with an
unreadable or empty directory left out. -/
def uverbsPaths (h : Host) (ids : List Str) : List Str :=
  ids.filterMap (fun v => (uverbsName h v).map (fun name => bytes "/dev/infiniband/" ++ name))

/-! ## Sample hosts, configurations and containers -/

/-- Sample of `path.Join(dir, name)` for a clean, non-empty `dir` and a plain
file name. -/
def sampleJoin (dir name : Str) : Str :=
  dir ++ bytes "/" ++ name

/-- Sample of `filepath.Dir` for a clean absolute path with at least two
components: the path without its last component. -/
def sampleDir (p : Str) : Str :=
  ((p.reverse.dropWhile (fun b => b ≠ 47)).drop 1).reverse

/-- Sample of `strconv.Quote` for a string with nothing to escape. -/
def sampleQuote (s : Str) : Str :=
  [34] ++ s ++ [34]

/-- Sample of `discover.DevicesIDs`: what follows `/dev/accel/accel` in each
path. -/
def sampleDevicesIDs (paths : List Str) : List Str :=
  paths.map (fun p => p.drop (bytes "/dev/accel/accel").length)

/-- A host with no hook binary anywhere, no accelerator and `FAKE_DEVICE`
unset. -/
def bareHost : Host where
  execLookPath := fun _ => ([], some (bytes "executable file not found in $PATH"))
  osExecutable := (bytes "/opt/nri/habana-nri", none)
  osStat := fun p => some (bytes "stat " ++ p ++ bytes ": no such file or directory")
  osReadDir := fun p => ([], some (bytes "open " ++ p ++ bytes ": no such file or directory"))
  fakeDeviceSet := false
  AcceleratorDevices := []
  DevicesIDs := sampleDevicesIDs
  DeviceInfo := fun p => .error (bytes "stat " ++ p ++ bytes ": no such file or directory")
  FakeDeviceInfo := fun d u => .ok { Path := d ++ u, Major := 0, Minor := 0, FileMode := 0 }
  filepathDir := sampleDir
  pathJoin := sampleJoin
  strconvQuote := sampleQuote

/-- The bare host with the hook binary on the executable search path. -/
def hookHost : Host :=
  { bareHost with
    execLookPath := fun _ => (bytes "/usr/local/bin/habana-container-hook", none) }

/-- The bare host with the hook binary only in `/opt/habana/bin`. -/
def binariesDirHost : Host :=
  { bareHost with
    osStat := fun p =>
      if p = bytes "/opt/habana/bin/habana-container-hook" then none
      else some (bytes "stat " ++ p ++ bytes ": no such file or directory") }

/-- The hook host with `FAKE_DEVICE` set. -/
def fakeHost : Host :=
  { hookHost with fakeDeviceSet := true }

/-- Modern mode, no always-mount, both mount flags on. -/
def modernCfg : Config where
  Runtime := { AlwaysMount := false, Mode := Mode.Modern }
  MountAccelerators := true
  MountUverbs := true
  BinariesDir := bytes "/opt/habana/bin"

/-- Modern mode with always-mount, both mount flags on. -/
def alwaysMountCfg : Config :=
  { modernCfg with Runtime := { AlwaysMount := true, Mode := Mode.Modern } }

/-- Legacy mode, no always-mount. -/
def legacyCfg : Config :=
  { modernCfg with Runtime := { AlwaysMount := false, Mode := Mode.Legacy } }

def samplePod : PodSandbox := { Name := bytes "pod" }

/-- A container that does not mention the accelerator. -/
def plainContainer : Container :=
  { Name := bytes "web", Env := [bytes "PATH=/bin", bytes "TERM=xterm"] }

/-- A container asking for devices 0 and 2. -/
def container02 : Container :=
  { Name := bytes "train", Env := [bytes "HABANA_VISIBLE_DEVICES=0,2"] }

/-- A sample device node. -/
def sampleDevInfo : DevInfo :=
  { Path := bytes "/dev/accel/accel0", Major := 508, Minor := 0, FileMode := 8630 }

/-- An adjustment that already holds the habana hook in both stages. -/
def presentAdj : ContainerAdjustment :=
  { Hooks := some
      { Prestart := [{ Path := bytes "/usr/bin/habana-container-hook",
                       Args := [bytes "/usr/bin/habana-container-hook", bytes "prestart"] }],
        CreateRuntime := [{ Path := bytes "/usr/bin/habana-container-hook",
                            Args := [bytes "/usr/bin/habana-container-hook",
                                     bytes "createRuntime"] }] } }

/-- The hook host with two accelerators in the catalog whose device nodes
cannot be resolved. -/
def lostDeviceHost : Host :=
  { hookHost with
    AcceleratorDevices := [bytes "/dev/accel/accel0", bytes "/dev/accel/accel2"] }

/-- The hook host with three accelerators whose device nodes resolve. -/
def deviceHost : Host :=
  { hookHost with
    AcceleratorDevices :=
      [bytes "/dev/accel/accel0", bytes "/dev/accel/accel1", bytes "/dev/accel/accel2"]
    DeviceInfo := fun p => .ok { Path := p, Major := 508, Minor := 0, FileMode := 8630 } }

/-- Modern mode, accelerators mounted, uverbs not mounted. -/
def acceleratorsOnlyCfg : Config :=
  { modernCfg with MountUverbs := false }

/-- A container asking for device 1. -/
def container1 : Container :=
  { Name := bytes "infer", Env := [bytes "HABANA_VISIBLE_DEVICES=1"] }

/-! ## Lemmas on the string functions -/

theorem bytes_eq_sign : bytes "=" = [61] := by decide

theorem HasPrefix_cons_singleton (c : Nat) (s : Str) (b : Nat) :
    HasPrefix (c :: s) [b] = (b == c) := by
  simp [HasPrefix, List.isPrefixOf]

theorem Index_of_form (name v : Str) (b : Nat) (hname : b ∉ name) :
    Index (name ++ b :: v) [b] = some name.length := by
  induction name with
  | nil => simp [Index, HasPrefix_cons_singleton]
  | cons a name ih =>
    have hab : b ≠ a := fun h => hname (by simp [h])
    have hb : b ∉ name := fun h => hname (by simp [h])
    simp [Index, HasPrefix_cons_singleton, hab, ih hb]

theorem Cut_of_form (name v : Str) (b : Nat) (hname : b ∉ name) :
    Cut (name ++ b :: v) [b] = (name, v, true) := by
  simp [Cut, Index_of_form name v b hname]

theorem genSplit_ne_nil (sep : Str) (n : Nat) (s : Str) : genSplit sep n s ≠ [] := by
  cases n with
  | zero => simp [genSplit]
  | succ n =>
    simp only [genSplit]
    cases Index s sep <;> simp

theorem Split_length_ne_zero (s sep : Str) : (Split s sep).length ≠ 0 := by
  intro h
  exact genSplit_ne_nil sep (Count s sep) s (List.length_eq_zero.mp h)

/-! ## Lemmas on `filterDevicesByENV` -/

theorem scanEnv_append (pre l : List Str)
    (hpre : ∀ e ∈ pre, HasPrefix e (bytes "HABANA_VISIBLE_DEVICES") = false) :
    scanEnv (pre ++ l) = scanEnv l := by
  induction pre with
  | nil => rfl
  | cons e pre ih =>
    have he := hpre e (by simp)
    have := ih (fun x hx => hpre x (by simp [hx]))
    simp [scanEnv, he, this]

theorem scanEnv_cons_hit (ev : Str) (rest rest2 : List Str)
    (hev : HasPrefix ev (bytes "HABANA_VISIBLE_DEVICES") = true) :
    scanEnv (ev :: rest) = scanEnv (ev :: rest2) := by
  simp [scanEnv, hev]

theorem scanEnv_of_form (name v : Str) (rest : List Str)
    (hev : HasPrefix (name ++ bytes "=" ++ v) (bytes "HABANA_VISIBLE_DEVICES") = true)
    (hname : 61 ∉ name) :
    scanEnv ((name ++ bytes "=" ++ v) :: rest) =
      if v = bytes "all" then .returnDevices else .requestedDevs (Split v (bytes ",")) := by
  have hcut : Cut (name ++ bytes "=" ++ v) (bytes "=") = (name, v, true) := by
    rw [bytes_eq_sign, List.append_assoc]
    exact Cut_of_form name v 61 hname
  simp only [scanEnv, hev, hcut, if_true]

theorem scanEnv_no_entry (env : List Str)
    (h : ∀ e ∈ env, HasPrefix e (bytes "HABANA_VISIBLE_DEVICES") = false) :
    scanEnv env = .requestedDevs [] := by
  have := scanEnv_append env [] h
  simpa [scanEnv] using this

theorem filterLoop_eq_filter (req : List Str) (devices acc : List Str)
    (hne : ∀ d ∈ devices, d ≠ []) :
    filterLoop req devices acc = some (acc ++ devices.filter (lastCharIn req)) := by
  induction devices generalizing acc with
  | nil => simp [filterLoop]
  | cons d ds ih =>
    have hd : d ≠ [] := hne d (by simp)
    have hds : ∀ x ∈ ds, x ≠ [] := fun x hx => hne x (by simp [hx])
    obtain ⟨b, hb⟩ : ∃ b, d.getLast? = some b := by
      cases h : d.getLast? with
      | none => exact absurd (List.getLast?_eq_none_iff.mp h) hd
      | some b => exact ⟨b, rfl⟩
    by_cases hc : utf8 b ∈ req
    · simp [filterLoop, devID, hb, slicesContains, hc, ih _ hds, lastCharIn, List.filter_cons]
    · simp [filterLoop, devID, hb, slicesContains, hc, ih _ hds, lastCharIn, List.filter_cons]

/-! ## Device filtering (C1 - C3) -/

/-- C1. Comma-list case of `filterDevicesByENV`: when every catalog path is
non-empty and the first environment entry with prefix
`HABANA_VISIBLE_DEVICES` is `name=v` (`name` holds no `=`, byte 61) with `v`
different from `all`, the call returns, without panicking, exactly the
catalog entries, in catalog order, whose last character as a one-character
string is an element of `v` split on commas. -/
theorem filterDevicesByENV_comma_list (c : Container) (devices pre rest : List Str)
    (name v : Str)
    (hne : ∀ d ∈ devices, d ≠ [])
    (henv : c.Env = pre ++ (name ++ bytes "=" ++ v) :: rest)
    (hpre : ∀ e ∈ pre, HasPrefix e (bytes "HABANA_VISIBLE_DEVICES") = false)
    (hev : HasPrefix (name ++ bytes "=" ++ v) (bytes "HABANA_VISIBLE_DEVICES") = true)
    (hname : 61 ∉ name)
    (hv : v ≠ bytes "all") :
    filterDevicesByENV c devices =
      some (devices.filter (lastCharIn (Split v (bytes ",")))) := by
  unfold filterDevicesByENV
  rw [henv, scanEnv_append pre _ hpre, scanEnv_of_form name v rest hev hname, if_neg hv]
  simp only [Split_length_ne_zero, if_false]
  simpa using filterLoop_eq_filter (Split v (bytes ",")) devices [] hne

/-- Witness for C1: the request `2,0` against the catalog `accel0, accel1,
accel2` selects `accel0, accel2`, in catalog order. -/
theorem filterDevicesByENV_comma_list_witness :
    filterDevicesByENV
        { Name := bytes "ctr",
          Env := [bytes "PATH=/bin", bytes "HABANA_VISIBLE_DEVICES=2,0",
                  bytes "HABANA_VISIBLE_DEVICES=all"] }
        [bytes "/dev/accel/accel0", bytes "/dev/accel/accel1", bytes "/dev/accel/accel2"] =
      some [bytes "/dev/accel/accel0", bytes "/dev/accel/accel2"] :=
  (filterDevicesByENV_comma_list
      { Name := bytes "ctr",
        Env := [bytes "PATH=/bin", bytes "HABANA_VISIBLE_DEVICES=2,0",
                bytes "HABANA_VISIBLE_DEVICES=all"] }
      [bytes "/dev/accel/accel0", bytes "/dev/accel/accel1", bytes "/dev/accel/accel2"]
      [bytes "PATH=/bin"] [bytes "HABANA_VISIBLE_DEVICES=all"]
      (bytes "HABANA_VISIBLE_DEVICES") (bytes "2,0")
      (by decide) (by decide) (by decide) (by decide) (by decide) (by decide)).trans
    (by decide)

/-- C2. Select-all case of `filterDevicesByENV`: if the first environment
entry with prefix `HABANA_VISIBLE_DEVICES` is `name=all` (`name` holds no
`=`), or if no entry has that prefix, the call returns the full catalog
unchanged. -/
theorem filterDevicesByENV_select_all (c : Container) (devices : List Str)
    (h : (∃ pre rest name, c.Env = pre ++ (name ++ bytes "=" ++ bytes "all") :: rest ∧
            (∀ e ∈ pre, HasPrefix e (bytes "HABANA_VISIBLE_DEVICES") = false) ∧
            HasPrefix (name ++ bytes "=" ++ bytes "all") (bytes "HABANA_VISIBLE_DEVICES") = true ∧
            61 ∉ name) ∨
         (∀ e ∈ c.Env, HasPrefix e (bytes "HABANA_VISIBLE_DEVICES") = false)) :
    filterDevicesByENV c devices = some devices := by
  unfold filterDevicesByENV
  rcases h with ⟨pre, rest, name, henv, hpre, hev, hname⟩ | hno
  · rw [henv, scanEnv_append pre _ hpre, scanEnv_of_form name _ rest hev hname, if_pos rfl]
  · rw [scanEnv_no_entry c.Env hno]
    simp

/-- Witness for C2: an entry `HABANA_VISIBLE_DEVICES=all` ahead of a narrower
one leaves the catalog unchanged. -/
theorem filterDevicesByENV_select_all_witness :
    filterDevicesByENV
        { Name := bytes "ctr",
          Env := [bytes "PATH=/bin", bytes "HABANA_VISIBLE_DEVICES=all",
                  bytes "HABANA_VISIBLE_DEVICES=1"] }
        [bytes "/dev/accel/accel0", bytes "/dev/accel/accel1"] =
      some [bytes "/dev/accel/accel0", bytes "/dev/accel/accel1"] :=
  filterDevicesByENV_select_all _ _
    (Or.inl ⟨[bytes "PATH=/bin"], [bytes "HABANA_VISIBLE_DEVICES=1"],
      bytes "HABANA_VISIBLE_DEVICES", by decide, by decide, by decide, by decide⟩)

/-- C3. First match wins in `filterDevicesByENV`: two containers whose
environment lists agree up to and including their first entry with prefix
`HABANA_VISIBLE_DEVICES` get the same result, whatever follows that entry. -/
theorem filterDevicesByENV_first_match_wins (c1 c2 : Container) (devices pre rest1 rest2 : List Str)
    (ev : Str)
    (h1 : c1.Env = pre ++ ev :: rest1)
    (h2 : c2.Env = pre ++ ev :: rest2)
    (hpre : ∀ e ∈ pre, HasPrefix e (bytes "HABANA_VISIBLE_DEVICES") = false)
    (hev : HasPrefix ev (bytes "HABANA_VISIBLE_DEVICES") = true) :
    filterDevicesByENV c1 devices = filterDevicesByENV c2 devices := by
  unfold filterDevicesByENV
  rw [h1, h2, scanEnv_append pre _ hpre, scanEnv_append pre _ hpre,
    scanEnv_cons_hit ev rest1 rest2 hev]

/-- Witness for C3: a second `HABANA_VISIBLE_DEVICES` entry after the first one
changes nothing. -/
theorem filterDevicesByENV_first_match_wins_witness :
    filterDevicesByENV
        { Name := bytes "a", Env := [bytes "HABANA_VISIBLE_DEVICES=1", bytes "HABANA_VISIBLE_DEVICES=0"] }
        [bytes "/dev/accel/accel0", bytes "/dev/accel/accel1"] =
      filterDevicesByENV
        { Name := bytes "b", Env := [bytes "HABANA_VISIBLE_DEVICES=1", bytes "TERM=xterm"] }
        [bytes "/dev/accel/accel0", bytes "/dev/accel/accel1"] :=
  filterDevicesByENV_first_match_wins _ _ _ [] [bytes "HABANA_VISIBLE_DEVICES=0"]
    [bytes "TERM=xterm"] (bytes "HABANA_VISIBLE_DEVICES=1") (by decide) (by decide)
    (by decide) (by decide)

/-! ## Lemmas on the hook search -/

theorem IsHabanaContainer_eq_false (c : Container)
    (hc : ∀ e ∈ c.Env, HasPrefix e (bytes "HABANA_VISIBLE_DEVICES") = false) :
    IsHabanaContainer c = false := by
  simp only [IsHabanaContainer, EnvHLVisibleDevices, List.any_eq_false]
  intro e he
  simp [hc e he]

theorem IsHabanaContainer_eq_true (c : Container)
    (hc : ∃ e ∈ c.Env, HasPrefix e (bytes "HABANA_VISIBLE_DEVICES") = true) :
    IsHabanaContainer c = true := by
  simp only [IsHabanaContainer, EnvHLVisibleDevices, List.any_eq_true]
  exact hc

theorem skip_eq_false (cfg : Config) (c : Container) (hp : proceeds cfg c) :
    (!cfg.Runtime.AlwaysMount && !IsHabanaContainer c) = false := by
  rcases hp with h | h
  · simp [h]
  · simp [IsHabanaContainer_eq_true c h]

/-- The search of `hookBinaryPath` in terms of its four checks. -/
theorem hookBinaryPath_eq (h : Host) (cfg : Config) :
    hookBinaryPath h cfg =
      match checkSearchPath h with
      | some p => (p, none)
      | none =>
        match checkExecutableDir h with
        | some p => (p, none)
        | none =>
          match checkBinariesDir h cfg with
          | some p => (p, none)
          | none =>
            match checkDefault h with
            | some p => (p, none)
            | none => ([], some (bytes "habana-container-hook was not found on the system")) := by
  unfold hookBinaryPath checkSearchPath checkExecutableDir checkBinariesDir checkDefault
    hookDefaultFilePath
  rcases h.execLookPath (bytes "habana-container-hook") with ⟨p1, _ | e1⟩
  · rfl
  · rcases h.osExecutable with ⟨exe, _ | e2⟩
    · dsimp only
      cases h.osStat (h.pathJoin (h.filepathDir exe) (bytes "habana-container-hook")) with
      | none => simp
      | some e =>
        cases h.osStat (h.pathJoin cfg.BinariesDir (bytes "habana-container-hook")) with
        | none => simp
        | some e3 =>
          cases h.osStat (bytes "/usr/bin/habana-container-hook") <;> simp
    · dsimp only
      cases h.osStat (h.pathJoin cfg.BinariesDir (bytes "habana-container-hook")) with
      | none => simp
      | some e3 =>
        cases h.osStat (bytes "/usr/bin/habana-container-hook") <;> simp

theorem addPrestartHook_fresh (h : Host) (cfg : Config) :
    (∃ e, addPrestartHook h {} cfg = ({}, some e)) ∨
    (∃ p, addPrestartHook h {} cfg =
      ({ Hooks := some { Prestart := [{ Path := p, Args := [p, bytes "prestart"] }] } }, none)) := by
  unfold addPrestartHook
  rcases hookBinaryPath h cfg with ⟨p, _ | e⟩
  · right; exact ⟨p, by simp⟩
  · dsimp only
    cases h.osStat hookDefaultFilePath with
    | none => right; exact ⟨hookDefaultFilePath, by simp⟩
    | some e' => left; exact ⟨e', by simp⟩

theorem hook_search_failed (h : Host) (cfg : Config)
    (h1 : checkSearchPath h = none) (h2 : checkExecutableDir h = none)
    (h3 : checkBinariesDir h cfg = none) (h4 : checkDefault h = none) :
    ∃ e, (hookBinaryPath h cfg).2.isSome = true ∧ h.osStat hookDefaultFilePath = some e := by
  rw [hookBinaryPath_eq, h1, h2, h3, h4]
  simp only [checkDefault] at h4
  cases hs : h.osStat hookDefaultFilePath with
  | none => simp [hookDefaultFilePath] at hs; simp [hs] at h4
  | some e => exact ⟨e, by simp⟩

theorem addPrestartHook_not_found (h : Host) (cfg : Config) (adj : ContainerAdjustment) (e : Str)
    (hf : (hookBinaryPath h cfg).2.isSome = true) (hs : h.osStat hookDefaultFilePath = some e) :
    addPrestartHook h adj cfg = (adj, some e) := by
  unfold addPrestartHook
  generalize hookBinaryPath h cfg = r at hf
  rcases r with ⟨p, _ | e'⟩
  · simp at hf
  · simp [hs]

theorem addCreateRuntimeHook_not_found (h : Host) (cfg : Config) (adj : ContainerAdjustment)
    (e : Str)
    (hf : (hookBinaryPath h cfg).2.isSome = true) (hs : h.osStat hookDefaultFilePath = some e) :
    addCreateRuntimeHook h adj cfg = (adj, some e) := by
  unfold addCreateRuntimeHook
  generalize hookBinaryPath h cfg = r at hf
  rcases r with ⟨p, _ | e'⟩
  · simp at hf
  · simp [hs]

theorem addPrestartHook_resolved (h : Host) (cfg : Config) (adj : ContainerAdjustment) (p : Str)
    (hres : hookBinaryPath h cfg = (p, none)) :
    addPrestartHook h adj cfg =
      match adj.Hooks with
      | none =>
        ({ adj with Hooks := some { Prestart := [{ Path := p, Args := [p, bytes "prestart"] }] } },
          none)
      | some hooks =>
        if hooks.Prestart.any (fun hk => Contains hk.Path (bytes "habana-container-hook")) then
          (adj, none)
        else
          ({ adj with Hooks := some { hooks with
              Prestart := hooks.Prestart ++ [{ Path := p, Args := [p, bytes "prestart"] }] } },
            none) := by
  unfold addPrestartHook
  rw [hres]
  cases hh : adj.Hooks with
  | none => simp
  | some hooks =>
    cases hl : hooks.Prestart with
    | nil => simp [hl]
    | cons a l => simp [hl]

theorem addCreateRuntimeHook_resolved (h : Host) (cfg : Config) (adj : ContainerAdjustment)
    (p : Str) (hres : hookBinaryPath h cfg = (p, none)) :
    addCreateRuntimeHook h adj cfg =
      match adj.Hooks with
      | none =>
        ({ adj with
            Hooks := some { CreateRuntime := [{ Path := p, Args := [p, bytes "createRuntime"] }] } },
          none)
      | some hooks =>
        if hooks.CreateRuntime.any (fun hk => Contains hk.Path (bytes "habana-container-hook")) then
          (adj, none)
        else
          ({ adj with Hooks := some { hooks with
              CreateRuntime :=
                hooks.CreateRuntime ++ [{ Path := p, Args := [p, bytes "createRuntime"] }] } },
            none) := by
  unfold addCreateRuntimeHook
  rw [hres]
  cases hh : adj.Hooks with
  | none => simp
  | some hooks =>
    cases hl : hooks.CreateRuntime with
    | nil => simp [hl]
    | cons a l => simp [hl]

theorem addPrestartHook_twice (h : Host) (cfg : Config) (adj : ContainerAdjustment) (p : Str)
    (hres : hookBinaryPath h cfg = (p, none))
    (hsub : Contains p (bytes "habana-container-hook") = true) :
    addPrestartHook h (addPrestartHook h adj cfg).1 cfg = addPrestartHook h adj cfg := by
  rw [addPrestartHook_resolved h cfg adj p hres]
  cases hh : adj.Hooks with
  | none => simp [addPrestartHook_resolved h cfg _ p hres, hsub]
  | some hooks =>
    by_cases ha : hooks.Prestart.any (fun hk => Contains hk.Path (bytes "habana-container-hook"))
        = true
    · simp only [ha, if_true]
      rw [addPrestartHook_resolved h cfg adj p hres, hh]
      simp only [ha, if_true]
    · simp only [ha]
      simp [addPrestartHook_resolved h cfg _ p hres, hsub]

theorem addCreateRuntimeHook_twice (h : Host) (cfg : Config) (adj : ContainerAdjustment)
    (p : Str) (hres : hookBinaryPath h cfg = (p, none))
    (hsub : Contains p (bytes "habana-container-hook") = true) :
    addCreateRuntimeHook h (addCreateRuntimeHook h adj cfg).1 cfg =
      addCreateRuntimeHook h adj cfg := by
  rw [addCreateRuntimeHook_resolved h cfg adj p hres]
  cases hh : adj.Hooks with
  | none => simp [addCreateRuntimeHook_resolved h cfg _ p hres, hsub]
  | some hooks =>
    by_cases ha : hooks.CreateRuntime.any
        (fun hk => Contains hk.Path (bytes "habana-container-hook")) = true
    · simp only [ha, if_true]
      rw [addCreateRuntimeHook_resolved h cfg adj p hres, hh]
      simp only [ha, if_true]
    · simp only [ha]
      simp [addCreateRuntimeHook_resolved h cfg _ p hres, hsub]

/-! ## Lemmas on the device steps -/

theorem devicePaths_addDevicesToSpec_aux (current : List Str) (devs : List DevInfo)
    (adj : ContainerAdjustment) :
    devicePaths (devs.foldl
      (fun adj hlDevice =>
        if hlDevice.Path ∈ current then adj
        else
          adj.AddDevice
            { Type_ := bytes "c"
              Major := (hlDevice.Major : Int)
              Minor := (hlDevice.Minor : Int)
              FileMode := some hlDevice.FileMode
              Path := hlDevice.Path
              Gid := some 0
              Uid := some 0 })
      adj) =
    devicePaths adj ++ (devs.map (fun d => d.Path)).filter (fun p => decide (p ∉ current)) := by
  induction devs generalizing adj with
  | nil => simp
  | cons d ds ih =>
    simp only [List.foldl_cons, List.map_cons]
    rw [ih]
    by_cases hd : d.Path ∈ current
    · simp [hd, List.filter_cons]
    · simp [hd, List.filter_cons, devicePaths, ContainerAdjustment.AddDevice,
        ContainerAdjustment.GetDevices]

theorem devicePaths_addDevicesToSpec (adj : ContainerAdjustment) (devs : List DevInfo) :
    devicePaths (addDevicesToSpec adj devs) =
      devicePaths adj ++
        (devs.map (fun d => d.Path)).filter (fun p => decide (p ∉ devicePaths adj)) := by
  unfold addDevicesToSpec
  exact devicePaths_addDevicesToSpec_aux _ devs adj

theorem hooks_addDevicesToSpec (adj : ContainerAdjustment) (devs : List DevInfo) :
    (addDevicesToSpec adj devs).Hooks = adj.Hooks := by
  unfold addDevicesToSpec
  generalize (adj.GetDevices.map (fun dev => dev.Path)) = current
  induction devs generalizing adj with
  | nil => rfl
  | cons d ds ih =>
    simp only [List.foldl_cons]
    rw [ih]
    by_cases hd : d.Path ∈ current <;> simp [hd, ContainerAdjustment.AddDevice]

theorem accelLoop_fake (h : Host) (f : Str → Str → DevInfo)
    (hf : ∀ d u, h.FakeDeviceInfo d u = .ok (f d u)) (ids : List Str) (acc : List DevInfo) :
    accelLoop h true ids acc =
      .ok (acc ++ ids.flatMap (fun u =>
        [f (bytes "/dev/accel/accel") u, f (bytes "/dev/accel/accel_controlD") u])) := by
  induction ids generalizing acc with
  | nil => simp [accelLoop]
  | cons u us ih =>
    simp [accelLoop, accelPaths, hf, ih]

theorem uverbsLoop_fake (h : Host) (f : Str → Str → DevInfo)
    (hf : ∀ d u, h.FakeDeviceInfo d u = .ok (f d u)) (ids : List Str) (i : Nat)
    (acc : List DevInfo) (hlen : i + ids.length ≤ uDev.length) :
    uverbsLoop h true i ids acc =
      some (.ok (acc ++ ((uDev.drop i).take ids.length).map (fun p => f p []))) := by
  induction ids generalizing i acc with
  | nil => simp [uverbsLoop]
  | cons u us ih =>
    have hi : i < uDev.length := by
      simp only [List.length_cons] at hlen
      omega
    have hget : uDev.get? i = some uDev[i] := by
      simp [List.getElem?_eq_getElem hi]
    have hdrop : uDev.drop i = uDev[i] :: uDev.drop (i + 1) := List.drop_eq_getElem_cons hi
    have hlen2 : (i + 1) + us.length ≤ uDev.length := by
      simp only [List.length_cons] at hlen
      omega
    simp only [uverbsLoop, if_true, hget, hf, ih (i + 1) _ hlen2, hdrop, List.length_cons,
      List.take_succ_cons, List.map_cons, List.append_assoc, List.singleton_append]

/-! ## The orchestrator and the hook steps (C4 - C10) -/

/-- C4. `CreateContainer` is a no-op for unrelated containers: when
`AlwaysMount` is false and no environment entry of the container starts with
`HABANA_VISIBLE_DEVICES`, then for every host state, mode and mount flags the
call returns no error and no adjustment, and its local adjustment holds no
hook, no device and no environment variable. -/
theorem CreateContainer_unrelated_noop (h : Host) (cfg : Config) (pod : PodSandbox)
    (c : Container)
    (ham : cfg.Runtime.AlwaysMount = false)
    (hc : ∀ e ∈ c.Env, HasPrefix e (bytes "HABANA_VISIBLE_DEVICES") = false) :
    CreateContainer h cfg pod c = some { adjust := {}, ret := none, err := none } := by
  simp [CreateContainer, ham, IsHabanaContainer_eq_false c hc]

/-- Witness for C4: a plain container on a host that has the hook binary. -/
theorem CreateContainer_unrelated_noop_witness :
    CreateContainer hookHost modernCfg samplePod plainContainer =
      some { adjust := {}, ret := none, err := none } :=
  CreateContainer_unrelated_noop hookHost modernCfg samplePod plainContainer (by decide)
    (by decide)

/-- C5, evaluation at the failing input: modern mode with always-mount on a
host whose hook binary resolves but which has no accelerator device.  The
createRuntime hook is put into the local adjustment, and the call then
returns no adjustment at all, so the caller never sees the hook. -/
theorem CreateContainer_no_devices_drops_hook :
    CreateContainer hookHost alwaysMountCfg samplePod plainContainer =
      some { adjust :=
               { Hooks := some { CreateRuntime :=
                   [{ Path := bytes "/usr/local/bin/habana-container-hook",
                      Args := [bytes "/usr/local/bin/habana-container-hook",
                               bytes "createRuntime"] }] } },
             ret := none, err := none } := by
  decide

/-- C6, counterexample: in the fake-mode scenario (`HABANA_VISIBLE_DEVICES=0,2`,
`FAKE_DEVICE` set, modern mode, both mount flags on, hook resolved) the
returned adjustment has 16 accelerator entries and 8 uverbs entries, not 4
and 2. -/
theorem CreateContainer_fake_scenario_counterexample :
    (∃ r adj, CreateContainer fakeHost modernCfg samplePod container02 = some r ∧
      r.ret = some adj ∧
      (accelEntries (devicePaths adj)).length = 16 ∧
      (uverbsEntries (devicePaths adj)).length = 8) ∧
    ¬ (∃ r adj, CreateContainer fakeHost modernCfg samplePod container02 = some r ∧
      r.ret = some adj ∧
      (accelEntries (devicePaths adj)).length = 4 ∧
      (uverbsEntries (devicePaths adj)).length = 2) := by
  have hrun : ∃ r adj, CreateContainer fakeHost modernCfg samplePod container02 = some r ∧
      r.ret = some adj ∧
      (accelEntries (devicePaths adj)).length = 16 ∧
      (uverbsEntries (devicePaths adj)).length = 8 := by
    refine ⟨_, _, rfl, rfl, ?_, ?_⟩ <;> decide
  refine ⟨hrun, ?_⟩
  rintro ⟨r, adj, hr, hret, h4, _⟩
  obtain ⟨r0, adj0, hr0, hret0, h16, _⟩ := hrun
  have hrr : r = r0 := Option.some.inj (hr.symm.trans hr0)
  subst hrr
  have haa : adj = adj0 := Option.some.inj (hret.symm.trans hret0)
  subst haa
  omega

/-- C6, amended: in the fake-mode scenario (container environment
`HABANA_VISIBLE_DEVICES=0,2`, `FAKE_DEVICE` set, modern mode, both mount flags
on, hook resolved to `p`, fake lookups succeeding with the path made of stem
and ID) `CreateContainer` returns an adjustment with exactly one
createRuntime hook, the 16 accelerator entries of the IDs 0 to 7 followed by
the 8 canned uverbs entries, and no duplicate path. -/
theorem CreateContainer_fake_scenario (h : Host) (cfg : Config) (pod : PodSandbox)
    (c : Container) (p : Str)
    (henv : c.Env = [bytes "HABANA_VISIBLE_DEVICES=0,2"])
    (hfake : h.fakeDeviceSet = true)
    (hmode : cfg.Runtime.Mode = Mode.Modern)
    (hacc : cfg.MountAccelerators = true)
    (huv : cfg.MountUverbs = true)
    (hres : hookBinaryPath h cfg = (p, none))
    (hinfo : ∀ d u, ∃ i, h.FakeDeviceInfo d u = .ok i ∧ i.Path = d ++ u) :
    ∃ r adj, CreateContainer h cfg pod c = some r ∧ r.ret = some adj ∧ r.err = none ∧
      adj.createRuntimeHooks = [{ Path := p, Args := [p, bytes "createRuntime"] }] ∧
      devicePaths adj = fakeScenarioPaths ∧
      (devicePaths adj).Nodup := by
  choose f hf using hinfo
  have hf1 : ∀ d u, h.FakeDeviceInfo d u = .ok (f d u) := fun d u => (hf d u).1
  have hf2 : ∀ d u, (f d u).Path = d ++ u := fun d u => (hf d u).2
  have hp : proceeds cfg c := Or.inr ⟨bytes "HABANA_VISIBLE_DEVICES=0,2", by simp [henv], by decide⟩
  obtain ⟨A, hA⟩ : ∃ A, A = addDevicesToSpec
      (addDevicesToSpec
        { Hooks := some { CreateRuntime := [{ Path := p, Args := [p, bytes "createRuntime"] }] } }
        (fakeRequestedDevices.flatMap (fun u =>
          [f (bytes "/dev/accel/accel") u, f (bytes "/dev/accel/accel_controlD") u])))
      (((uDev.drop 0).take fakeRequestedDevices.length).map (fun p => f p [])) := ⟨_, rfl⟩
  have hpaths : devicePaths A = fakeScenarioPaths := by
    rw [hA, devicePaths_addDevicesToSpec, devicePaths_addDevicesToSpec]
    have h0 : devicePaths
        { Hooks := some { CreateRuntime := [{ Path := p, Args := [p, bytes "createRuntime"] }] } }
        = [] := rfl
    simp only [List.map_flatMap, List.map_cons, List.map_nil, hf2, List.map_map,
      Function.comp_def, h0]
    decide
  have hrun : CreateContainer h cfg pod c = some { adjust := A, ret := some A, err := none } := by
    have hlen : fakeRequestedDevices.length = 8 := rfl
    unfold CreateContainer
    simp only [skip_eq_false cfg c hp]
    simp [hmode, addCreateRuntimeHook_resolved h cfg {} p hres, NeedFakeDevice, hfake, hacc,
      huv, addAcceleratorDevices, accelLoop_fake h f hf1, addUverbsDevices,
      uverbsLoop_fake h f hf1 fakeRequestedDevices 0 [] (by decide), hA, hlen]
  refine ⟨_, A, hrun, rfl, rfl, ?_, hpaths, ?_⟩
  · simp [hA, ContainerAdjustment.createRuntimeHooks, hooks_addDevicesToSpec]
  · rw [hpaths]
    decide

/-- Witness for the amended C6: the sample fake host. -/
theorem CreateContainer_fake_scenario_witness :
    ∃ r adj, CreateContainer fakeHost modernCfg samplePod container02 = some r ∧
      r.ret = some adj ∧ r.err = none ∧
      adj.createRuntimeHooks =
        [{ Path := bytes "/usr/local/bin/habana-container-hook",
           Args := [bytes "/usr/local/bin/habana-container-hook", bytes "createRuntime"] }] ∧
      devicePaths adj = fakeScenarioPaths ∧
      (devicePaths adj).Nodup :=
  CreateContainer_fake_scenario fakeHost modernCfg samplePod container02
    (bytes "/usr/local/bin/habana-container-hook") (by decide) (by decide) (by decide)
    (by decide) (by decide) (by decide) (fun _ _ => ⟨_, rfl, rfl⟩)

/-- C7. Legacy mode: for every host state and container, `CreateContainer`
with `Mode = Legacy` returns without panicking, and an adjustment it returns
has no createRuntime hook, no Linux device entry and at most one prestart
hook. -/
theorem CreateContainer_legacy (h : Host) (cfg : Config) (pod : PodSandbox) (c : Container)
    (hm : cfg.Runtime.Mode = Mode.Legacy) :
    ∃ r, CreateContainer h cfg pod c = some r ∧
      ∀ adj, r.ret = some adj →
        adj.createRuntimeHooks = [] ∧ adj.GetDevices = [] ∧ adj.prestartHooks.length ≤ 1 := by
  unfold CreateContainer
  by_cases hs : (!cfg.Runtime.AlwaysMount && !IsHabanaContainer c) = true
  · simp [hs]
  · simp only [hs, hm, if_true]
    rcases addPrestartHook_fresh h cfg with ⟨e, he⟩ | ⟨p, hp⟩
    · simp [he]
    · simp [hp, ContainerAdjustment.createRuntimeHooks, ContainerAdjustment.GetDevices,
        ContainerAdjustment.prestartHooks]

/-- Witness for C7: a legacy run that returns an adjustment. -/
theorem CreateContainer_legacy_witness :
    ∃ r, CreateContainer binariesDirHost legacyCfg samplePod container02 = some r ∧
      ∀ adj, r.ret = some adj →
        adj.createRuntimeHooks = [] ∧ adj.GetDevices = [] ∧ adj.prestartHooks.length ≤ 1 :=
  CreateContainer_legacy binariesDirHost legacyCfg samplePod container02 (by decide)

/-- C8. `hookBinaryPath` returns the first successful check in the order
(1) search-path lookup, (2) directory of the current executable,
(3) `cfg.BinariesDir`, (4) `/usr/bin/habana-container-hook`: a later
candidate is returned only when every earlier check failed, and the call
fails, with the empty path and the not-found error, exactly when all four
checks fail. -/
theorem hookBinaryPath_priority (h : Host) (cfg : Config) :
    (∀ p, checkSearchPath h = some p → hookBinaryPath h cfg = (p, none)) ∧
    (∀ p, checkSearchPath h = none → checkExecutableDir h = some p →
      hookBinaryPath h cfg = (p, none)) ∧
    (∀ p, checkSearchPath h = none → checkExecutableDir h = none →
      checkBinariesDir h cfg = some p → hookBinaryPath h cfg = (p, none)) ∧
    (∀ p, checkSearchPath h = none → checkExecutableDir h = none →
      checkBinariesDir h cfg = none → checkDefault h = some p →
      hookBinaryPath h cfg = (p, none)) ∧
    ((hookBinaryPath h cfg).2 ≠ none ↔
      (checkSearchPath h = none ∧ checkExecutableDir h = none ∧
        checkBinariesDir h cfg = none ∧ checkDefault h = none)) ∧
    ((hookBinaryPath h cfg).2 ≠ none →
      hookBinaryPath h cfg =
        ([], some (bytes "habana-container-hook was not found on the system"))) := by
  rw [hookBinaryPath_eq]
  cases checkSearchPath h <;> cases checkExecutableDir h <;> cases checkBinariesDir h cfg <;>
    cases checkDefault h <;> simp

/-- Witness for C8: with the binary only in `cfg.BinariesDir`, the third
candidate is returned. -/
theorem hookBinaryPath_priority_witness :
    hookBinaryPath binariesDirHost modernCfg =
      (bytes "/opt/habana/bin/habana-container-hook", none) :=
  (hookBinaryPath_priority binariesDirHost modernCfg).2.2.1
    (bytes "/opt/habana/bin/habana-container-hook") (by decide) (by decide) (by decide)

/-- C9. Hook not found: in either mode, for every container for which the
pipeline proceeds past `Evaluate`, if all four checks of the hook search fail
then `CreateContainer` returns an error and no adjustment, and its local
adjustment holds no hook. -/
theorem CreateContainer_hook_not_found (h : Host) (cfg : Config) (pod : PodSandbox)
    (c : Container) (hp : proceeds cfg c)
    (h1 : checkSearchPath h = none) (h2 : checkExecutableDir h = none)
    (h3 : checkBinariesDir h cfg = none) (h4 : checkDefault h = none) :
    ∃ msg, CreateContainer h cfg pod c = some { adjust := {}, ret := none, err := some msg } := by
  obtain ⟨e, hf, hs⟩ := hook_search_failed h cfg h1 h2 h3 h4
  unfold CreateContainer
  simp only [skip_eq_false cfg c hp]
  by_cases hm : cfg.Runtime.Mode = Mode.Legacy
  · simp [hm, addPrestartHook_not_found h cfg {} e hf hs]
  · simp [hm, addCreateRuntimeHook_not_found h cfg {} e hf hs]

/-- Witness for C9: legacy mode on the host without any hook binary. -/
theorem CreateContainer_hook_not_found_witness :
    ∃ msg, CreateContainer bareHost legacyCfg samplePod container02 =
      some { adjust := {}, ret := none, err := some msg } :=
  CreateContainer_hook_not_found bareHost legacyCfg samplePod container02
    (Or.inr ⟨bytes "HABANA_VISIBLE_DEVICES=0,2", by decide, by decide⟩)
    (by decide) (by decide) (by decide) (by decide)

/-- C10. Hook idempotence: when the hook resolves to a path `p` containing
`habana-container-hook`, a second call of `addPrestartHook` (resp.
`addCreateRuntimeHook`) gives the same adjustment and result as the first
call alone; from the empty adjustment, two calls leave exactly one hook in
that stage's list. -/
theorem hook_idempotent (h : Host) (cfg : Config) (adj : ContainerAdjustment) (p : Str)
    (hres : hookBinaryPath h cfg = (p, none))
    (hsub : Contains p (bytes "habana-container-hook") = true) :
    addPrestartHook h (addPrestartHook h adj cfg).1 cfg = addPrestartHook h adj cfg ∧
    addCreateRuntimeHook h (addCreateRuntimeHook h adj cfg).1 cfg =
      addCreateRuntimeHook h adj cfg ∧
    (addPrestartHook h (addPrestartHook h {} cfg).1 cfg).1.prestartHooks =
      [{ Path := p, Args := [p, bytes "prestart"] }] ∧
    (addCreateRuntimeHook h (addCreateRuntimeHook h {} cfg).1 cfg).1.createRuntimeHooks =
      [{ Path := p, Args := [p, bytes "createRuntime"] }] := by
  refine ⟨addPrestartHook_twice h cfg adj p hres hsub,
    addCreateRuntimeHook_twice h cfg adj p hres hsub, ?_, ?_⟩
  · rw [addPrestartHook_twice h cfg {} p hres hsub, addPrestartHook_resolved h cfg {} p hres]
    rfl
  · rw [addCreateRuntimeHook_twice h cfg {} p hres hsub,
      addCreateRuntimeHook_resolved h cfg {} p hres]
    rfl

/-- Witness for C10: the host with the hook binary on the search path. -/
theorem hook_idempotent_witness :
    addPrestartHook hookHost (addPrestartHook hookHost {} modernCfg).1 modernCfg =
        addPrestartHook hookHost {} modernCfg ∧
    addCreateRuntimeHook hookHost (addCreateRuntimeHook hookHost {} modernCfg).1 modernCfg =
      addCreateRuntimeHook hookHost {} modernCfg ∧
    (addPrestartHook hookHost (addPrestartHook hookHost {} modernCfg).1 modernCfg).1.prestartHooks =
      [{ Path := bytes "/usr/local/bin/habana-container-hook",
         Args := [bytes "/usr/local/bin/habana-container-hook", bytes "prestart"] }] ∧
    (addCreateRuntimeHook hookHost (addCreateRuntimeHook hookHost {} modernCfg).1
        modernCfg).1.createRuntimeHooks =
      [{ Path := bytes "/usr/local/bin/habana-container-hook",
         Args := [bytes "/usr/local/bin/habana-container-hook", bytes "createRuntime"] }] :=
  hook_idempotent hookHost modernCfg {} (bytes "/usr/local/bin/habana-container-hook")
    (by decide) (by decide)

/-! ## Lemmas on `addDevicesToSpec` and the lookups -/

theorem addDevicesToSpec_fold (current : List Str) (devs : List DevInfo)
    (acc : ContainerAdjustment) :
    devs.foldl
      (fun adj hlDevice =>
        if hlDevice.Path ∈ current then adj
        else
          adj.AddDevice
            { Type_ := bytes "c"
              Major := (hlDevice.Major : Int)
              Minor := (hlDevice.Minor : Int)
              FileMode := some hlDevice.FileMode
              Path := hlDevice.Path
              Gid := some 0
              Uid := some 0 })
      acc =
    { acc with
      LinuxDevices := acc.LinuxDevices ++
        (devs.filter (fun d => decide (d.Path ∉ current))).map deviceEntry } := by
  induction devs generalizing acc with
  | nil => simp
  | cons d ds ih =>
    simp only [List.foldl_cons]
    rw [ih]
    by_cases hd : d.Path ∈ current
    · simp [hd, List.filter_cons]
    · simp [hd, List.filter_cons, ContainerAdjustment.AddDevice, deviceEntry]

theorem addDevicesToSpec_eq (adj : ContainerAdjustment) (devs : List DevInfo) :
    addDevicesToSpec adj devs =
      { adj with
        LinuxDevices := adj.LinuxDevices ++
          (devs.filter (fun d => decide (d.Path ∉ devicePaths adj))).map deviceEntry } := by
  unfold addDevicesToSpec
  exact addDevicesToSpec_fold _ devs adj

theorem addDevicesToSpec_nodup (adj : ContainerAdjustment) (devs : List DevInfo)
    (hadj : (devicePaths adj).Nodup) (hdevs : (devs.map (fun d => d.Path)).Nodup) :
    (devicePaths (addDevicesToSpec adj devs)).Nodup := by
  rw [devicePaths_addDevicesToSpec]
  refine List.Nodup.append hadj (hdevs.filter _) ?_
  intro p hp hq
  simp only [List.mem_filter, decide_eq_true_eq] at hq
  exact hq.2 hp

theorem resolveAll_append {α : Type} (f : α → Except Str DevInfo) (l1 l2 : List α) :
    resolveAll f (l1 ++ l2) =
      match resolveAll f l1 with
      | .error e => .error e
      | .ok d1 =>
        match resolveAll f l2 with
        | .error e => .error e
        | .ok d2 => .ok (d1 ++ d2) := by
  induction l1 with
  | nil => simp only [List.nil_append, resolveAll]; cases resolveAll f l2 <;> rfl
  | cons a l ih =>
    show resolveAll f (a :: (l ++ l2)) = _
    simp only [resolveAll]
    rw [ih]
    cases f a with
    | error e => rfl
    | ok dev =>
      cases resolveAll f l with
      | error e => rfl
      | ok d1 => cases resolveAll f l2 <;> rfl

theorem resolveAll_ok {α : Type} (f : α → Except Str DevInfo) (l : List α) (devs : List DevInfo)
    (hok : resolveAll f l = .ok devs) :
    List.Forall₂ (fun a dev => f a = .ok dev) l devs := by
  induction l generalizing devs with
  | nil =>
    simp only [resolveAll, Except.ok.injEq] at hok
    subst hok
    exact List.Forall₂.nil
  | cons a l ih =>
    simp only [resolveAll] at hok
    cases ha : f a with
    | error e => rw [ha] at hok; simp at hok
    | ok dev =>
      rw [ha] at hok
      cases hr : resolveAll f l with
      | error e => rw [hr] at hok; simp at hok
      | ok ds =>
        rw [hr] at hok
        simp only [Except.ok.injEq] at hok
        subst hok
        exact List.Forall₂.cons ha (ih ds hr)

theorem resolveAll_error {α : Type} (f : α → Except Str DevInfo) (l : List α) (e : Str)
    (herr : resolveAll f l = .error e) :
    ∃ a ∈ l, f a = .error e := by
  induction l with
  | nil => simp [resolveAll] at herr
  | cons a l ih =>
    simp only [resolveAll] at herr
    cases ha : f a with
    | error e2 =>
      rw [ha] at herr
      simp only [Except.error.injEq] at herr
      subst herr
      exact ⟨a, by simp, ha⟩
    | ok dev =>
      rw [ha] at herr
      cases hr : resolveAll f l with
      | error e2 =>
        rw [hr] at herr
        simp only [Except.error.injEq] at herr
        subst herr
        obtain ⟨b, hb, hfb⟩ := ih hr
        exact ⟨b, by simp [hb], hfb⟩
      | ok ds => rw [hr] at herr; simp at herr

theorem accelPaths_eq (h : Host) (fake : Bool) (u : Str) (stems : List Str)
    (acc : List DevInfo) :
    accelPaths h fake u stems acc =
      match resolveAll (fun du => lookupDevice h fake du.1 du.2) (stems.map (fun d => (d, u))) with
      | .error e => .error e
      | .ok devs => .ok (acc ++ devs) := by
  induction stems generalizing acc with
  | nil => simp [accelPaths, resolveAll]
  | cons d ds ih =>
    have hstep : (if (!fake) = true then h.DeviceInfo (d ++ u) else h.FakeDeviceInfo d u) =
        lookupDevice h fake d u := rfl
    simp only [accelPaths, List.map_cons, resolveAll, hstep]
    cases lookupDevice h fake d u with
    | error e => rfl
    | ok dev =>
      simp only [ih]
      cases resolveAll (fun du => lookupDevice h fake du.1 du.2) (ds.map (fun d => (d, u))) with
      | error e => rfl
      | ok devs => simp

theorem accelLoop_eq (h : Host) (fake : Bool) (ids : List Str) (acc : List DevInfo) :
    accelLoop h fake ids acc =
      match resolveAll (fun du => lookupDevice h fake du.1 du.2) (acceleratorRequests ids) with
      | .error e => .error e
      | .ok devs => .ok (acc ++ devs) := by
  induction ids generalizing acc with
  | nil => simp [accelLoop, acceleratorRequests, resolveAll]
  | cons u us ih =>
    have hreq : acceleratorRequests (u :: us) =
        [bytes "/dev/accel/accel", bytes "/dev/accel/accel_controlD"].map (fun d => (d, u)) ++
          acceleratorRequests us := by
      simp [acceleratorRequests]
    rw [hreq, resolveAll_append]
    simp only [accelLoop, accelPaths_eq]
    cases resolveAll (fun du => lookupDevice h fake du.1 du.2)
        ([bytes "/dev/accel/accel", bytes "/dev/accel/accel_controlD"].map (fun d => (d, u))) with
    | error e => rfl
    | ok d1 =>
      simp only [ih]
      cases resolveAll (fun du => lookupDevice h fake du.1 du.2) (acceleratorRequests us) with
      | error e => rfl
      | ok d2 => simp

theorem addAcceleratorDevices_eq (h : Host) (adj : ContainerAdjustment) (ids : List Str)
    (fake : Bool) :
    addAcceleratorDevices h adj ids fake =
      match resolveAll (fun du => lookupDevice h fake du.1 du.2) (acceleratorRequests ids) with
      | .error e => (adj, some e)
      | .ok devs => (addDevicesToSpec adj devs, none) := by
  simp only [addAcceleratorDevices, accelLoop_eq]
  cases resolveAll (fun du => lookupDevice h fake du.1 du.2) (acceleratorRequests ids) with
  | error e => rfl
  | ok devs => simp

theorem uverbsLoop_real_eq (h : Host) (ids : List Str) (i : Nat) (acc : List DevInfo) :
    uverbsLoop h false i ids acc =
      some (match resolveAll h.DeviceInfo (uverbsPaths h ids) with
        | .error e => .error e
        | .ok devs => .ok (acc ++ devs)) := by
  induction ids generalizing i acc with
  | nil => simp [uverbsLoop, uverbsPaths, resolveAll]
  | cons v vs ih =>
    simp only [uverbsLoop, uverbsPaths, List.filterMap_cons, uverbsName, Bool.false_eq_true,
      if_false]
    rcases hd : h.osReadDir
        (bytes "/sys/class/infiniband/hlib_" ++ v ++ bytes "/device/infiniband_verbs")
      with ⟨names, _ | e⟩
    · cases names with
      | nil => simp only [ih, Option.map_none', uverbsPaths, uverbsName]
      | cons name rest =>
        simp only [Option.map_some', resolveAll]
        cases h.DeviceInfo (bytes "/dev/infiniband/" ++ name) with
        | error e => rfl
        | ok info =>
          simp only [ih, uverbsPaths, uverbsName]
          cases resolveAll h.DeviceInfo
            (List.filterMap (fun v => Option.map (fun name => bytes "/dev/infiniband/" ++ name)
              (match h.osReadDir
                (bytes "/sys/class/infiniband/hlib_" ++ v ++ bytes "/device/infiniband_verbs") with
              | (name :: _, none) => some name
              | _ => none)) vs) with
          | error e => rfl
          | ok devs => simp
    · cases names <;> simp only [ih, Option.map_none', uverbsPaths, uverbsName]

/-! ## Lemmas on the hook steps -/

theorem hookBinaryPath_error_stat (h : Host) (cfg : Config) (e : Str)
    (he : (hookBinaryPath h cfg).2 = some e) :
    ∃ e2, h.osStat hookDefaultFilePath = some e2 := by
  rw [hookBinaryPath_eq] at he
  cases h1 : checkSearchPath h <;> rw [h1] at he
  · cases h2 : checkExecutableDir h <;> rw [h2] at he
    · cases h3 : checkBinariesDir h cfg <;> rw [h3] at he
      · cases h4 : checkDefault h <;> rw [h4] at he
        · simp only [checkDefault] at h4
          cases hs : h.osStat hookDefaultFilePath with
          | none => simp [hookDefaultFilePath] at hs; simp [hs] at h4
          | some e2 => exact ⟨e2, rfl⟩
        · simp at he
      · simp at he
    · simp at he
  · simp at he

theorem addPrestartHook_unresolved (h : Host) (cfg : Config) (adj : ContainerAdjustment)
    (hne : (hookBinaryPath h cfg).2 ≠ none) :
    ∃ e, addPrestartHook h adj cfg = (adj, some e) := by
  cases he : (hookBinaryPath h cfg).2 with
  | none => exact absurd he hne
  | some e =>
    obtain ⟨e2, hs⟩ := hookBinaryPath_error_stat h cfg e he
    exact ⟨e2, addPrestartHook_not_found h cfg adj e2 (by simp [he]) hs⟩

theorem addCreateRuntimeHook_unresolved (h : Host) (cfg : Config) (adj : ContainerAdjustment)
    (hne : (hookBinaryPath h cfg).2 ≠ none) :
    ∃ e, addCreateRuntimeHook h adj cfg = (adj, some e) := by
  cases he : (hookBinaryPath h cfg).2 with
  | none => exact absurd he hne
  | some e =>
    obtain ⟨e2, hs⟩ := hookBinaryPath_error_stat h cfg e he
    exact ⟨e2, addCreateRuntimeHook_not_found h cfg adj e2 (by simp [he]) hs⟩

theorem addPrestartHook_appends (h : Host) (cfg : Config) (adj : ContainerAdjustment) (p : Str)
    (hres : hookBinaryPath h cfg = (p, none))
    (hno : adj.prestartHooks.any
      (fun hk => Contains hk.Path (bytes "habana-container-hook")) = false) :
    (addPrestartHook h adj cfg).2 = none ∧
    (addPrestartHook h adj cfg).1.prestartHooks =
      adj.prestartHooks ++ [{ Path := p, Args := [p, bytes "prestart"] }] ∧
    (addPrestartHook h adj cfg).1.createRuntimeHooks = adj.createRuntimeHooks ∧
    (addPrestartHook h adj cfg).1.LinuxDevices = adj.LinuxDevices ∧
    (addPrestartHook h adj cfg).1.Env = adj.Env := by
  rw [addPrestartHook_resolved h cfg adj p hres]
  cases hh : adj.Hooks with
  | none => simp [ContainerAdjustment.prestartHooks, ContainerAdjustment.createRuntimeHooks, hh]
  | some hooks =>
    simp only [ContainerAdjustment.prestartHooks, hh] at hno
    simp [ContainerAdjustment.prestartHooks, ContainerAdjustment.createRuntimeHooks, hh, hno]

theorem addCreateRuntimeHook_appends (h : Host) (cfg : Config) (adj : ContainerAdjustment)
    (p : Str) (hres : hookBinaryPath h cfg = (p, none))
    (hno : adj.createRuntimeHooks.any
      (fun hk => Contains hk.Path (bytes "habana-container-hook")) = false) :
    (addCreateRuntimeHook h adj cfg).2 = none ∧
    (addCreateRuntimeHook h adj cfg).1.createRuntimeHooks =
      adj.createRuntimeHooks ++ [{ Path := p, Args := [p, bytes "createRuntime"] }] ∧
    (addCreateRuntimeHook h adj cfg).1.prestartHooks = adj.prestartHooks ∧
    (addCreateRuntimeHook h adj cfg).1.LinuxDevices = adj.LinuxDevices ∧
    (addCreateRuntimeHook h adj cfg).1.Env = adj.Env := by
  rw [addCreateRuntimeHook_resolved h cfg adj p hres]
  cases hh : adj.Hooks with
  | none => simp [ContainerAdjustment.prestartHooks, ContainerAdjustment.createRuntimeHooks, hh]
  | some hooks =>
    simp only [ContainerAdjustment.createRuntimeHooks, hh] at hno
    simp [ContainerAdjustment.prestartHooks, ContainerAdjustment.createRuntimeHooks, hh, hno]

theorem addPrestartHook_present (h : Host) (cfg : Config) (adj : ContainerAdjustment) (p : Str)
    (hres : hookBinaryPath h cfg = (p, none))
    (hyes : adj.prestartHooks.any
      (fun hk => Contains hk.Path (bytes "habana-container-hook")) = true) :
    addPrestartHook h adj cfg = (adj, none) := by
  rw [addPrestartHook_resolved h cfg adj p hres]
  cases hh : adj.Hooks with
  | none => simp [ContainerAdjustment.prestartHooks, hh] at hyes
  | some hooks =>
    simp only [ContainerAdjustment.prestartHooks, hh] at hyes
    simp [hyes]

theorem addCreateRuntimeHook_present (h : Host) (cfg : Config) (adj : ContainerAdjustment)
    (p : Str) (hres : hookBinaryPath h cfg = (p, none))
    (hyes : adj.createRuntimeHooks.any
      (fun hk => Contains hk.Path (bytes "habana-container-hook")) = true) :
    addCreateRuntimeHook h adj cfg = (adj, none) := by
  rw [addCreateRuntimeHook_resolved h cfg adj p hres]
  cases hh : adj.Hooks with
  | none => simp [ContainerAdjustment.createRuntimeHooks, hh] at hyes
  | some hooks =>
    simp only [ContainerAdjustment.createRuntimeHooks, hh] at hyes
    simp [hyes]

/-! ## The spec adjuster (C11, C12, C15 - C18) -/

/-- C11. Device idempotence: for every adjustment and every device `d`, a
second call of `addDevicesToSpec` with `[d]` gives the same adjustment as the
first call alone, and from an adjustment without devices two calls leave
exactly one device entry, with the path of `d`. -/
theorem addDevicesToSpec_idempotent (adj : ContainerAdjustment) (d : DevInfo) :
    addDevicesToSpec (addDevicesToSpec adj [d]) [d] = addDevicesToSpec adj [d] ∧
    (adj.GetDevices = [] →
      devicePaths (addDevicesToSpec (addDevicesToSpec adj [d]) [d]) = [d.Path]) := by
  have key : addDevicesToSpec (addDevicesToSpec adj [d]) [d] = addDevicesToSpec adj [d] := by
    by_cases hd : d.Path ∈ devicePaths adj
    · have h1 : addDevicesToSpec adj [d] = adj := by
        rw [addDevicesToSpec_eq]; simp [hd, List.filter_cons]
      rw [h1, h1]
    · have h1 : addDevicesToSpec adj [d] =
          { adj with LinuxDevices := adj.LinuxDevices ++ [deviceEntry d] } := by
        rw [addDevicesToSpec_eq]; simp [hd, List.filter_cons]
      rw [h1, addDevicesToSpec_eq]
      simp [devicePaths, ContainerAdjustment.GetDevices, deviceEntry, List.filter_cons]
  refine ⟨key, ?_⟩
  intro hempty
  rw [key, addDevicesToSpec_eq]
  simp only [ContainerAdjustment.GetDevices] at hempty
  simp [devicePaths, ContainerAdjustment.GetDevices, hempty, deviceEntry, List.filter_cons]

/-- Witness for C11: the sample device added twice to the empty adjustment. -/
theorem addDevicesToSpec_idempotent_witness :
    devicePaths (addDevicesToSpec (addDevicesToSpec {} [sampleDevInfo]) [sampleDevInfo]) =
      [bytes "/dev/accel/accel0"] :=
  (addDevicesToSpec_idempotent {} sampleDevInfo).2 rfl

/-- C12, evaluation at the failing input: the empty adjustment has no two
entries with the same path, and one call of `addDevicesToSpec` with the same
device listed twice leaves two entries with that path, because the set of
present paths is built once before the loop. -/
theorem addDevicesToSpec_duplicate_in_list :
    (devicePaths ({} : ContainerAdjustment)).Nodup ∧
    devicePaths (addDevicesToSpec {} [sampleDevInfo, sampleDevInfo]) =
      [bytes "/dev/accel/accel0", bytes "/dev/accel/accel0"] ∧
    ¬ (devicePaths (addDevicesToSpec {} [sampleDevInfo, sampleDevInfo])).Nodup := by
  decide

/-- C15. Device entry shape: `addDevicesToSpec` leaves the existing entries
unchanged and appends after them, in input order, one entry for each device
whose path was not present before the call; the entry has type `c`, uid 0,
gid 0 and the path, major, minor and file mode of its `DevInfo`.  Hooks and
environment are untouched. -/
theorem addDevicesToSpec_shape (adj : ContainerAdjustment) (devs : List DevInfo) :
    (addDevicesToSpec adj devs).LinuxDevices =
      adj.LinuxDevices ++
        (devs.filter (fun d => decide (d.Path ∉ devicePaths adj))).map
          (fun d =>
            { Path := d.Path, Type_ := bytes "c", Major := (d.Major : Int),
              Minor := (d.Minor : Int), FileMode := some d.FileMode,
              Uid := some 0, Gid := some 0 }) ∧
    (addDevicesToSpec adj devs).Hooks = adj.Hooks ∧
    (addDevicesToSpec adj devs).Env = adj.Env := by
  rw [addDevicesToSpec_eq]
  exact ⟨rfl, rfl, rfl⟩

/-- C16. Hook argument convention: a call of `addPrestartHook` (resp.
`addCreateRuntimeHook`) either leaves the adjustment unchanged or appends,
as last element of the prestart (resp. createRuntime) list, the entry with
the resolved path `p` and arguments `[p, prestart]` (resp.
`[p, createRuntime]`), the other stage's list unchanged; it appends whenever
the hook resolves and the list holds no habana hook yet. -/
theorem hook_argument_convention (h : Host) (cfg : Config) (adj : ContainerAdjustment) :
    ((addPrestartHook h adj cfg).1 = adj ∨
      ∃ p, hookBinaryPath h cfg = (p, none) ∧
        (addPrestartHook h adj cfg).1.prestartHooks =
          adj.prestartHooks ++ [{ Path := p, Args := [p, bytes "prestart"] }] ∧
        (addPrestartHook h adj cfg).1.createRuntimeHooks = adj.createRuntimeHooks) ∧
    ((addCreateRuntimeHook h adj cfg).1 = adj ∨
      ∃ p, hookBinaryPath h cfg = (p, none) ∧
        (addCreateRuntimeHook h adj cfg).1.createRuntimeHooks =
          adj.createRuntimeHooks ++ [{ Path := p, Args := [p, bytes "createRuntime"] }] ∧
        (addCreateRuntimeHook h adj cfg).1.prestartHooks = adj.prestartHooks) ∧
    (∀ p, hookBinaryPath h cfg = (p, none) →
      adj.prestartHooks.any
        (fun hk => Contains hk.Path (bytes "habana-container-hook")) = false →
      (addPrestartHook h adj cfg).1.prestartHooks =
        adj.prestartHooks ++ [{ Path := p, Args := [p, bytes "prestart"] }]) ∧
    (∀ p, hookBinaryPath h cfg = (p, none) →
      adj.createRuntimeHooks.any
        (fun hk => Contains hk.Path (bytes "habana-container-hook")) = false →
      (addCreateRuntimeHook h adj cfg).1.createRuntimeHooks =
        adj.createRuntimeHooks ++ [{ Path := p, Args := [p, bytes "createRuntime"] }]) := by
  refine ⟨?_, ?_, fun p hres hno => (addPrestartHook_appends h cfg adj p hres hno).2.1,
    fun p hres hno => (addCreateRuntimeHook_appends h cfg adj p hres hno).2.1⟩
  · cases he : (hookBinaryPath h cfg).2 with
    | some e =>
      obtain ⟨e2, h2⟩ := addPrestartHook_unresolved h cfg adj (by simp [he])
      left; rw [h2]
    | none =>
      have hres : hookBinaryPath h cfg = ((hookBinaryPath h cfg).1, none) := by
        rw [← he]
      cases hany : adj.prestartHooks.any
          (fun hk => Contains hk.Path (bytes "habana-container-hook")) with
      | true => left; rw [addPrestartHook_present h cfg adj _ hres hany]
      | false =>
        right
        have := addPrestartHook_appends h cfg adj _ hres hany
        exact ⟨_, hres, this.2.1, this.2.2.1⟩
  · cases he : (hookBinaryPath h cfg).2 with
    | some e =>
      obtain ⟨e2, h2⟩ := addCreateRuntimeHook_unresolved h cfg adj (by simp [he])
      left; rw [h2]
    | none =>
      have hres : hookBinaryPath h cfg = ((hookBinaryPath h cfg).1, none) := by
        rw [← he]
      cases hany : adj.createRuntimeHooks.any
          (fun hk => Contains hk.Path (bytes "habana-container-hook")) with
      | true => left; rw [addCreateRuntimeHook_present h cfg adj _ hres hany]
      | false =>
        right
        have := addCreateRuntimeHook_appends h cfg adj _ hres hany
        exact ⟨_, hres, this.2.1, this.2.2.1⟩

/-- Witness for C16: the prestart hook appended to the empty adjustment. -/
theorem hook_argument_convention_witness :
    (addPrestartHook hookHost {} modernCfg).1.prestartHooks =
      ContainerAdjustment.prestartHooks {} ++
        [{ Path := bytes "/usr/local/bin/habana-container-hook",
           Args := [bytes "/usr/local/bin/habana-container-hook", bytes "prestart"] }] :=
  (hook_argument_convention hookHost modernCfg {}).2.2.1
    (bytes "/usr/local/bin/habana-container-hook") (by decide) (by decide)

/-- C17, counterexample: on a host where the hook binary is found nowhere, an
adjustment that already holds the habana hook in both stages gets an error
from `addPrestartHook` and from `addCreateRuntimeHook`, not a success. -/
theorem hook_present_unresolved_counterexample :
    presentAdj.prestartHooks.any
      (fun hk => Contains hk.Path (bytes "habana-container-hook")) = true ∧
    presentAdj.createRuntimeHooks.any
      (fun hk => Contains hk.Path (bytes "habana-container-hook")) = true ∧
    (addPrestartHook bareHost presentAdj modernCfg).2 ≠ none ∧
    (addCreateRuntimeHook bareHost presentAdj modernCfg).2 ≠ none := by
  decide

/-- C17, amended: when the hook binary resolves and the stage's list already
holds an entry whose path contains `habana-container-hook`,
`addPrestartHook` (resp. `addCreateRuntimeHook`) returns success and leaves
the adjustment unchanged; when the binary does not resolve, the call returns
the resolution error, the adjustment unchanged. -/
theorem hook_present_noop (h : Host) (cfg : Config) (adj : ContainerAdjustment) :
    (∀ p, hookBinaryPath h cfg = (p, none) →
      adj.prestartHooks.any
        (fun hk => Contains hk.Path (bytes "habana-container-hook")) = true →
      addPrestartHook h adj cfg = (adj, none)) ∧
    (∀ p, hookBinaryPath h cfg = (p, none) →
      adj.createRuntimeHooks.any
        (fun hk => Contains hk.Path (bytes "habana-container-hook")) = true →
      addCreateRuntimeHook h adj cfg = (adj, none)) ∧
    ((hookBinaryPath h cfg).2 ≠ none →
      (∃ e, addPrestartHook h adj cfg = (adj, some e)) ∧
      (∃ e, addCreateRuntimeHook h adj cfg = (adj, some e))) :=
  ⟨fun p hres hyes => addPrestartHook_present h cfg adj p hres hyes,
   fun p hres hyes => addCreateRuntimeHook_present h cfg adj p hres hyes,
   fun hne => ⟨addPrestartHook_unresolved h cfg adj hne,
     addCreateRuntimeHook_unresolved h cfg adj hne⟩⟩

/-- Witness for the amended C17: the hook host and the adjustment that holds the hook. -/
theorem hook_present_noop_witness :
    addPrestartHook hookHost presentAdj modernCfg = (presentAdj, none) :=
  (hook_present_noop hookHost modernCfg presentAdj).1
    (bytes "/usr/local/bin/habana-container-hook") (by decide) (by decide)

/-- C18. Accelerator injection is all-or-nothing: if `addAcceleratorDevices`
returns an error, the adjustment is unchanged and the error is the error of
the lookup of one of the derived paths; if it succeeds, the devices handed
to `addDevicesToSpec` are the lookup results, for each ID in request order,
of the accel path followed by the control path. -/
theorem addAcceleratorDevices_all_or_nothing (h : Host) (adj : ContainerAdjustment)
    (ids : List Str) (fake : Bool) :
    (∀ e, (addAcceleratorDevices h adj ids fake).2 = some e →
      (addAcceleratorDevices h adj ids fake).1 = adj ∧
      ∃ u ∈ ids, ∃ d ∈ [bytes "/dev/accel/accel", bytes "/dev/accel/accel_controlD"],
        lookupDevice h fake d u = .error e) ∧
    ((addAcceleratorDevices h adj ids fake).2 = none →
      ∃ devs, (addAcceleratorDevices h adj ids fake).1 = addDevicesToSpec adj devs ∧
        List.Forall₂ (fun du dev => lookupDevice h fake du.1 du.2 = .ok dev)
          (acceleratorRequests ids) devs) := by
  rw [addAcceleratorDevices_eq]
  cases hr : resolveAll (fun du => lookupDevice h fake du.1 du.2) (acceleratorRequests ids) with
  | error e =>
    refine ⟨?_, by simp⟩
    intro e2 he2
    simp only [Option.some.injEq] at he2
    subst he2
    refine ⟨rfl, ?_⟩
    obtain ⟨du, hmem, hdu⟩ := resolveAll_error _ _ _ hr
    simp only [acceleratorRequests, List.mem_flatMap] at hmem
    obtain ⟨u, hu, hin⟩ := hmem
    simp only [List.mem_cons, List.mem_singleton, List.not_mem_nil, or_false] at hin
    rcases hin with rfl | rfl
    · exact ⟨u, hu, _, by simp, hdu⟩
    · exact ⟨u, hu, _, by simp, hdu⟩
  | ok devs =>
    refine ⟨by simp, ?_⟩
    intro _
    exact ⟨devs, rfl, resolveAll_ok _ _ _ hr⟩

/-- Witness for C18: a failing lookup on the bare host. -/
theorem addAcceleratorDevices_all_or_nothing_witness :
    (addAcceleratorDevices bareHost {} [bytes "0"] false).1 = {} ∧
      ∃ u ∈ [bytes "0"], ∃ d ∈ [bytes "/dev/accel/accel", bytes "/dev/accel/accel_controlD"],
        lookupDevice bareHost false d u =
          .error (bytes "stat /dev/accel/accel0: no such file or directory") :=
  (addAcceleratorDevices_all_or_nothing bareHost {} [bytes "0"] false).1
    (bytes "stat /dev/accel/accel0: no such file or directory") (by decide)

/-! ## Lemmas on the uverbs step -/

theorem addUverbsDevices_real_eq (h : Host) (adj : ContainerAdjustment) (ids : List Str) :
    addUverbsDevices h adj ids false =
      some (match resolveAll h.DeviceInfo (uverbsPaths h ids) with
        | .error e => (adj, some e)
        | .ok devs => (addDevicesToSpec adj devs, none)) := by
  simp only [addUverbsDevices, uverbsLoop_real_eq]
  cases resolveAll h.DeviceInfo (uverbsPaths h ids) with
  | error e => rfl
  | ok devs => simp

theorem uverbsPaths_filter (h : Host) (ids : List Str) :
    uverbsPaths h (ids.filter (fun v => (uverbsName h v).isSome)) = uverbsPaths h ids := by
  induction ids with
  | nil => rfl
  | cons v vs ih =>
    simp only [uverbsPaths] at ih ⊢
    cases hv : uverbsName h v with
    | none => simp [List.filter_cons, hv, ih]
    | some name => simp [List.filter_cons, hv, ih]

theorem uverbsPaths_none (h : Host) (ids : List Str)
    (hall : ∀ v ∈ ids, uverbsName h v = none) : uverbsPaths h ids = [] := by
  induction ids with
  | nil => rfl
  | cons v vs ih =>
    have hv := hall v (by simp)
    have := ih (fun x hx => hall x (by simp [hx]))
    simp only [uverbsPaths] at this ⊢
    simp [hv, this]

theorem uDev_get?_none (i : Nat) : uDev.get? i = none ↔ 8 ≤ i := by
  have hlen : uDev.length = 8 := rfl
  rw [List.get?_eq_none, hlen]

theorem uverbsLoop_fake_total (h : Host) (ids : List Str) (i : Nat) (acc : List DevInfo)
    (hlen : i + ids.length ≤ uDev.length) :
    ∃ r, uverbsLoop h true i ids acc = some r := by
  induction ids generalizing i acc with
  | nil => exact ⟨_, rfl⟩
  | cons v vs ih =>
    simp only [List.length_cons] at hlen
    have hi : i < uDev.length := by omega
    have hget : uDev.get? i = some uDev[i] := by
      simp [List.getElem?_eq_getElem hi]
    simp only [uverbsLoop, if_true, hget]
    cases h.FakeDeviceInfo uDev[i] [] with
    | error e => exact ⟨_, rfl⟩
    | ok info => exact ih (i + 1) _ (by omega)

theorem uverbsLoop_fake_panics (h : Host)
    (hinfo : ∀ d u, ∃ info, h.FakeDeviceInfo d u = .ok info)
    (ids : List Str) (i : Nat) (acc : List DevInfo)
    (hne : ids ≠ []) (hlen : uDev.length < i + ids.length) :
    uverbsLoop h true i ids acc = none := by
  induction ids generalizing i acc with
  | nil => exact absurd rfl hne
  | cons v vs ih =>
    simp only [List.length_cons] at hlen
    have hl8 : uDev.length = 8 := rfl
    by_cases hi : 8 ≤ i
    · simp only [uverbsLoop, if_true, (uDev_get?_none i).mpr hi]
    · have hi2 : i < uDev.length := by omega
      have hget : uDev.get? i = some uDev[i] := by
        simp [List.getElem?_eq_getElem hi2]
      obtain ⟨info, hok⟩ := hinfo uDev[i] []
      simp only [uverbsLoop, if_true, hget, hok]
      have hvs : vs ≠ [] := by
        intro hnil
        subst hnil
        simp only [List.length_nil] at hlen
        omega
      exact ih (i + 1) _ hvs (by omega)

theorem addUverbsDevices_fake_panic_iff (h : Host) (adj : ContainerAdjustment) (ids : List Str)
    (hinfo : ∀ d u, ∃ info, h.FakeDeviceInfo d u = .ok info) :
    addUverbsDevices h adj ids true = none ↔ 8 < ids.length := by
  have hl8 : uDev.length = 8 := rfl
  constructor
  · intro hnone
    by_contra hle
    obtain ⟨r, hr⟩ := uverbsLoop_fake_total h ids 0 [] (by omega)
    simp only [addUverbsDevices, hr] at hnone
    cases r <;> simp at hnone
  · intro hgt
    have hne : ids ≠ [] := by
      intro hnil
      subst hnil
      simp at hgt
    simp only [addUverbsDevices, uverbsLoop_fake_panics h hinfo ids 0 [] hne (by omega)]

theorem addUverbsDevices_fake_ne_none (h : Host) (adj : ContainerAdjustment) :
    addUverbsDevices h adj fakeRequestedDevices true ≠ none := by
  obtain ⟨r, hr⟩ := uverbsLoop_fake_total h fakeRequestedDevices 0 [] (by decide)
  simp only [addUverbsDevices, hr]
  cases r <;> simp

theorem CreateContainer_fake_total (h : Host) (cfg : Config) (pod : PodSandbox) (c : Container)
    (hfake : h.fakeDeviceSet = true) :
    ∃ r, CreateContainer h cfg pod c = some r := by
  unfold CreateContainer
  simp only [NeedFakeDevice, hfake, Bool.not_true, Bool.false_eq_true, if_false]
  split
  · exact ⟨_, rfl⟩
  · split
    · split <;> exact ⟨_, rfl⟩
    · split
      · exact ⟨_, rfl⟩
      · split
        · exact ⟨_, rfl⟩
        · split
          · exact ⟨_, rfl⟩
          · split
            · split
              · rename_i heq
                exact absurd heq (addUverbsDevices_fake_ne_none h _)
              · exact ⟨_, rfl⟩
              · exact ⟨_, rfl⟩
            · exact ⟨_, rfl⟩

theorem HasPrefix_accel_infiniband (n : Str) :
    HasPrefix (bytes "/dev/accel/accel" ++ n) (bytes "/dev/infiniband/") = false ∧
    HasPrefix (bytes "/dev/accel/accel_controlD" ++ n) (bytes "/dev/infiniband/") = false :=
  ⟨rfl, rfl⟩

/-! ## Device steps and the modern path (C13, C14, C19, C20) -/

/-- C13, evaluation at the failing input: modern mode, accelerators mounted,
the hook resolved, the container asking for devices 0 and 2, and the lookup
of `/dev/accel/accel0` failing.  The local adjustment holds the
createRuntime hook and the `HABANA_RUNTIME_ERROR` variable, and the call
returns the error with no adjustment, so the caller receives neither. -/
theorem CreateContainer_device_failure_returns_nil :
    CreateContainer lostDeviceHost modernCfg samplePod container02 =
      some
        { adjust :=
            { Hooks := some { CreateRuntime :=
                [{ Path := bytes "/usr/local/bin/habana-container-hook",
                   Args := [bytes "/usr/local/bin/habana-container-hook",
                            bytes "createRuntime"] }] },
              Env := [(bytes "HABANA_RUNTIME_ERROR",
                sampleQuote (bytes "stat /dev/accel/accel0: no such file or directory"))] },
          ret := none,
          err := some (bytes
            "adding accelerator devices: stat /dev/accel/accel0: no such file or directory") } := by
  decide

/-- C14. Modern mode with accelerators mounted, uverbs not mounted, no fake
mode, the hook resolved and exactly one selected device ID `n` whose two
lookups succeed with the looked-up path: `CreateContainer` returns an
adjustment with exactly two device entries, `/dev/accel/accel<n>` and
`/dev/accel/accel_controlD<n>`, and no uverbs entry. -/
theorem CreateContainer_one_device (h : Host) (cfg : Config) (pod : PodSandbox) (c : Container)
    (p n : Str) (sel : List Str) (a b : DevInfo)
    (hfake : h.fakeDeviceSet = false)
    (hmode : cfg.Runtime.Mode = Mode.Modern)
    (hacc : cfg.MountAccelerators = true)
    (huv : cfg.MountUverbs = false)
    (hp : proceeds cfg c)
    (hres : hookBinaryPath h cfg = (p, none))
    (hsel : filterDevicesByENV c h.AcceleratorDevices = some sel)
    (hid : h.DevicesIDs sel = [n])
    (ha : h.DeviceInfo (bytes "/dev/accel/accel" ++ n) = .ok a)
    (hap : a.Path = bytes "/dev/accel/accel" ++ n)
    (hb : h.DeviceInfo (bytes "/dev/accel/accel_controlD" ++ n) = .ok b)
    (hbp : b.Path = bytes "/dev/accel/accel_controlD" ++ n) :
    ∃ r adj, CreateContainer h cfg pod c = some r ∧ r.ret = some adj ∧ r.err = none ∧
      devicePaths adj =
        [bytes "/dev/accel/accel" ++ n, bytes "/dev/accel/accel_controlD" ++ n] ∧
      adj.GetDevices.length = 2 ∧
      uverbsEntries (devicePaths adj) = [] := by
  obtain ⟨A, hA⟩ : ∃ A, A = addDevicesToSpec
      { Hooks := some { CreateRuntime := [{ Path := p, Args := [p, bytes "createRuntime"] }] } }
      [a, b] := ⟨_, rfl⟩
  have hpaths : devicePaths A =
      [bytes "/dev/accel/accel" ++ n, bytes "/dev/accel/accel_controlD" ++ n] := by
    rw [hA, devicePaths_addDevicesToSpec]
    have h0 : devicePaths
        { Hooks := some { CreateRuntime := [{ Path := p, Args := [p, bytes "createRuntime"] }] } }
        = [] := rfl
    simp [h0, hap, hbp]
  have hrun : CreateContainer h cfg pod c = some { adjust := A, ret := some A, err := none } := by
    unfold CreateContainer
    simp only [skip_eq_false cfg c hp]
    simp [hmode, addCreateRuntimeHook_resolved h cfg {} p hres, NeedFakeDevice, hfake, hsel,
      hid, hacc, huv, addAcceleratorDevices, accelLoop, accelPaths, ha, hb, hA]
  refine ⟨_, A, hrun, rfl, rfl, hpaths, ?_, ?_⟩
  · have : (devicePaths A).length = 2 := by rw [hpaths]; rfl
    simpa [devicePaths] using this
  · rw [hpaths]
    simp [uverbsEntries, List.filter_cons, (HasPrefix_accel_infiniband n).1,
      (HasPrefix_accel_infiniband n).2]

/-- Witness for C14: the request for device 1 on a host with three accelerators. -/
theorem CreateContainer_one_device_witness :
    ∃ r adj, CreateContainer deviceHost acceleratorsOnlyCfg samplePod container1 = some r ∧
      r.ret = some adj ∧ r.err = none ∧
      devicePaths adj =
        [bytes "/dev/accel/accel" ++ bytes "1", bytes "/dev/accel/accel_controlD" ++ bytes "1"] ∧
      adj.GetDevices.length = 2 ∧
      uverbsEntries (devicePaths adj) = [] :=
  CreateContainer_one_device deviceHost acceleratorsOnlyCfg samplePod container1
    (bytes "/usr/local/bin/habana-container-hook") (bytes "1") [bytes "/dev/accel/accel1"]
    { Path := bytes "/dev/accel/accel1", Major := 508, Minor := 0, FileMode := 8630 }
    { Path := bytes "/dev/accel/accel_controlD1", Major := 508, Minor := 0, FileMode := 8630 }
    (by decide) (by decide) (by decide) (by decide)
    (Or.inr ⟨bytes "HABANA_VISIBLE_DEVICES=1", by decide, by decide⟩)
    (by decide) (by decide) (by decide) rfl (by decide) rfl (by decide)

/-- C19. Uverbs per-ID skipping without fake mode: `addUverbsDevices` never
panics; an ID whose sysfs directory is unreadable or empty contributes
nothing, so the outcome is that of the request without those IDs; an error
is the lookup error of the device of a remaining ID, the adjustment
unchanged; on success the devices handed to `addDevicesToSpec` are the lookup
results of `/dev/infiniband/<first entry>` for the remaining IDs in request
order; and when every directory is unreadable or empty the call succeeds and
leaves the adjustment unchanged. -/
theorem addUverbsDevices_skips (h : Host) (adj : ContainerAdjustment) (ids : List Str) :
    (∃ res, addUverbsDevices h adj ids false = some res) ∧
    addUverbsDevices h adj ids false =
      addUverbsDevices h adj (ids.filter (fun v => (uverbsName h v).isSome)) false ∧
    (∀ a e, addUverbsDevices h adj ids false = some (a, some e) →
      a = adj ∧ ∃ v ∈ ids, ∃ name, uverbsName h v = some name ∧
        h.DeviceInfo (bytes "/dev/infiniband/" ++ name) = .error e) ∧
    (∀ a, addUverbsDevices h adj ids false = some (a, none) →
      ∃ devs, a = addDevicesToSpec adj devs ∧
        List.Forall₂ (fun path dev => h.DeviceInfo path = .ok dev) (uverbsPaths h ids) devs) ∧
    ((∀ v ∈ ids, uverbsName h v = none) →
      addUverbsDevices h adj ids false = some (adj, none)) := by
  refine ⟨?_, ?_, ?_, ?_, ?_⟩
  · rw [addUverbsDevices_real_eq]; exact ⟨_, rfl⟩
  · rw [addUverbsDevices_real_eq, addUverbsDevices_real_eq, uverbsPaths_filter]
  · intro a e hres
    rw [addUverbsDevices_real_eq] at hres
    cases hr : resolveAll h.DeviceInfo (uverbsPaths h ids) with
    | ok devs => rw [hr] at hres; simp at hres
    | error e2 =>
      rw [hr] at hres
      simp only [Option.some.injEq, Prod.mk.injEq] at hres
      obtain ⟨ha, he⟩ := hres
      subst ha; subst he
      refine ⟨rfl, ?_⟩
      obtain ⟨path, hmem, hpath⟩ := resolveAll_error _ _ _ hr
      simp only [uverbsPaths, List.mem_filterMap, Option.map_eq_some'] at hmem
      obtain ⟨v, hv, name, hname, rfl⟩ := hmem
      exact ⟨v, hv, name, hname, hpath⟩
  · intro a hres
    rw [addUverbsDevices_real_eq] at hres
    cases hr : resolveAll h.DeviceInfo (uverbsPaths h ids) with
    | error e => rw [hr] at hres; simp at hres
    | ok devs =>
      rw [hr] at hres
      simp only [Option.some.injEq, Prod.mk.injEq, and_true] at hres
      exact ⟨devs, hres.symm, resolveAll_ok _ _ _ hr⟩
  · intro hall
    rw [addUverbsDevices_real_eq, uverbsPaths_none h ids hall]
    simp only [resolveAll]
    rw [addDevicesToSpec_eq]
    simp

/-- Witness for C19: two IDs on the bare host, where no directory is readable. -/
theorem addUverbsDevices_skips_witness :
    addUverbsDevices bareHost presentAdj [bytes "0", bytes "1"] false =
      some (presentAdj, none) :=
  (addUverbsDevices_skips bareHost presentAdj [bytes "0", bytes "1"]).2.2.2.2 (by decide)

/-- C20. Fake-mode table indexing: the canned table and the fake ID list both
have 8 entries; position `i` of the table is out of range exactly when
`8 ≤ i`, so with fake lookups that succeed `addUverbsDevices` panics exactly
when more than 8 IDs are requested; `CreateContainer` with `FAKE_DEVICE` set
never panics; and with the fake ID list, position `i` yields the device of
canned name `i`. -/
theorem fake_table_in_bounds (h : Host) (cfg : Config) (pod : PodSandbox) (c : Container)
    (adj : ContainerAdjustment) (ids : List Str) :
    (uDev.length = 8 ∧ fakeRequestedDevices.length = 8) ∧
    (∀ i, uDev.get? i = none ↔ 8 ≤ i) ∧
    ((∀ d u, ∃ info, h.FakeDeviceInfo d u = .ok info) →
      (addUverbsDevices h adj ids true = none ↔ 8 < ids.length)) ∧
    (h.fakeDeviceSet = true → ∃ r, CreateContainer h cfg pod c = some r) ∧
    (∀ f : Str → Str → DevInfo, (∀ d u, h.FakeDeviceInfo d u = .ok (f d u)) →
      uverbsLoop h true 0 fakeRequestedDevices [] =
        some (.ok (uDev.map (fun p => f p [])))) := by
  refine ⟨⟨rfl, rfl⟩, uDev_get?_none, addUverbsDevices_fake_panic_iff h adj ids,
    CreateContainer_fake_total h cfg pod c, ?_⟩
  intro f hf
  rw [uverbsLoop_fake h f hf fakeRequestedDevices 0 [] (by decide)]
  have htake : (uDev.drop 0).take fakeRequestedDevices.length = uDev := by decide
  rw [htake, List.nil_append]

/-- Witness for C20: the fake host never panics. -/
theorem fake_table_in_bounds_witness :
    ∃ r, CreateContainer fakeHost modernCfg samplePod container02 = some r :=
  (fake_table_in_bounds fakeHost modernCfg samplePod container02 {} []).2.2.2.1 (by decide)

end Habana
